import Mathlib

/-!
Verification development for the LIO-SEGMOT back-end
(`src/mapOptimization.cpp`): a shallow embedding of the incremental joint
estimator (scan-to-map matcher driver, keyframe decision, incremental
solver driver, and the multi-object tracker core), together with theorems
settling the behavioural claims about it.

Numerical values are modelled over `ℚ`; C++ `int` counters over `ℤ`
(with `std::numeric_limits<int>::max()` as the explicit constant
`intMax = 2147483647`); node and object ids over `ℕ`.  SE(3) poses are
carried as an abstract type together with the operations the code uses
(`PoseOps`): no claim below depends on the numeric content of a pose,
only on how poses flow through the program, so the group structure is
kept as an opaque parameter.
-/

namespace LioSegmot

/-- A 6-dimensional tangent vector `(ω, v)`, as produced by
`gtsam::traits<Pose3>::Local` (`gtsam::Vector6`). -/
def Vec6 : Type := Fin 6 → ℚ

/-- The zero tangent vector. -/
def Vec6.zero : Vec6 := fun _ => 0

/-- `std::numeric_limits<int>::max()`, the retirement sentinel written into
`lostCount` (mapOptimization.cpp lines 1994 and 2078). -/
def intMax : ℤ := 2147483647

/-- The sum of a list of tangent vectors, componentwise
(the `vMean += v` accumulation in `velocityIsConsistent`). -/
def vecSum (l : List Vec6) : Vec6 := fun d => (l.map (fun v => v d)).sum

/-- The inverse of the diagonal covariance
`diag(angThr, angThr, angThr, velThr, velThr, velThr)` built in
`ObjectState::velocityIsConsistent` (lines 190-193), evaluated at
component `d`.  `covariance.inverse()` of a diagonal matrix is the
diagonal of reciprocals. -/
def consistencyWeight (angThr velThr : ℚ) (d : Fin 6) : ℚ :=
  if (d : ℕ) < 3 then angThr⁻¹ else velThr⁻¹

/-- One summand `(vᵢ − v̄)ᵀ Σ⁻¹ (vᵢ − v̄)` of the Mahalanobis accumulation in
`velocityIsConsistent` (lines 195-198). -/
def mahalanobisTerm (angThr velThr : ℚ) (v m : Vec6) : ℚ :=
  ((List.finRange 6).map (fun d => (v d - m d) ^ 2 * consistencyWeight angThr velThr d)).sum

/-- The velocity samples consulted by `velocityIsConsistent`: the entries
`previousVelocityNodeIndices[size - i - 1]` for `i < samplingSize`, read from
the current solver estimate (line 182).  `est` abstracts
`Local(identity, currentEstimates.at<Pose3>(idx))`. -/
def velocitySamples (samplingSize : ℕ) (est : ℕ → Vec6) (history : List ℕ) : List Vec6 :=
  (history.reverse.take samplingSize).map est

/-- The mean Mahalanobis distance `(1/K) Σᵢ (vᵢ − v̄)ᵀ Σ⁻¹ (vᵢ − v̄)` computed by
`ObjectState::velocityIsConsistent` (lines 180-199). -/
def velocityConsistencyError (samplingSize : ℕ) (est : ℕ → Vec6) (history : List ℕ)
    (angThr velThr : ℚ) : ℚ :=
  let vs := velocitySamples samplingSize est history
  let vMean : Vec6 := fun d => vecSum vs d / samplingSize
  ((vs.map (fun v => mahalanobisTerm angThr velThr v vMean)).sum) / samplingSize

/-- `ObjectState::velocityIsConsistent` (mapOptimization.cpp lines 169-207):
requires at least `samplingSize` recorded velocity node ids, then tests the
mean Mahalanobis distance of the last `samplingSize` solver velocity
estimates against `1.0 * 1.0`. -/
def velocityIsConsistent (samplingSize : ℕ) (est : ℕ → Vec6) (history : List ℕ)
    (angThr velThr : ℚ) : Bool :=
  if history.length < samplingSize then false
  else decide (velocityConsistencyError samplingSize est history angThr velThr < 1 * 1)

/-- The six detection-residual noise profiles built in `addDetectionFactor`
(lines 1942-1947): one `Detections` vector per variance knob. -/
inductive MatchProfile where
  | looseDetection
  | tightDetection
  | earlyLooseMatching
  | looseMatching
  | tightMatching
  | dataAssociation
deriving DecidableEq, Repr

/-- Modelled from the spec: `getDetectionIndexAndError` is declared in the
repository's factor headers, which are not under `src/`; per §4.6.2 it
returns `(j*, err*) = argmin` over the detections of the residual evaluated
at the predicted pose, with ties broken by detection index order (§7).
`argminAux i best l` scans `l`, whose head has index `i`. -/
def argminAux : ℕ → ℕ × ℚ → List ℚ → ℕ × ℚ
  | _, best, [] => best
  | i, best, e :: rest => argminAux (i + 1) (if e < best.2 then (i, e) else best) rest

/-- Modelled from the spec: `getDetectionIndexAndError` over the list of
per-detection residuals (see `argminAux`).  Only called with a nonempty
list by the embedding (the empty-detections case returns earlier in
`addDetectionFactor`). -/
def getDetectionIndexAndError : List ℚ → ℕ × ℚ
  | [] => (0, 0)
  | e :: rest => argminAux 1 (0, e) rest

/-- The tracking parameters of §6 that the tracker core reads. -/
structure TrackerParams where
  trackingStepsForLostObject : ℤ
  numberOfPreLooseCouplingSteps : ℤ
  numberOfInterLooseCouplingSteps : ℤ
  numberOfEarlySteps : ℕ
  numberOfVelocityConsistencySteps : ℕ
  detectionMatchThreshold : ℚ
  tightCouplingDetectionErrorThreshold : ℚ
  objectAngularVelocityConsistencyVarianceThreshold : ℚ
  objectLinearVelocityConsistencyVarianceThreshold : ℚ

/-- The matching-profile dispatch of `addDetectionFactor`
(mapOptimization.cpp lines 1973-1982): `trackScore >= P` selects the
loosely-coupled-matching vector, otherwise a path length of at most
`numberOfEarlySteps` selects the early-loosely-coupled-matching vector,
and every other track the loosely-coupled-matching vector.
`pathLength` mirrors `objectPaths.markers[objectIndex].points.size()`. -/
def matchingProfile (preLooseCouplingSteps : ℤ) (earlySteps : ℕ)
    (trackScore : ℤ) (pathLength : ℕ) : MatchProfile :=
  if preLooseCouplingSteps ≤ trackScore then .looseMatching
  else if pathLength ≤ earlySteps then .earlyLooseMatching
  else .looseMatching

/-- `ObjectState` (mapOptimization.cpp lines 81-208), restricted to the
fields the tracker core reads or writes.  `Pose` is the abstract pose
type; `previousVelocityNodeIndices` is the velocity-node history;
`pathLength` mirrors `objectPaths.markers[objectIndex].points.size()`,
which is maintained by the visualization code. -/
structure ObjectState (Pose : Type) where
  pose : Pose
  velocity : Pose
  poseNodeIndex : ℕ
  velocityNodeIndex : ℕ
  objectIndex : ℕ
  objectIndexForTracking : ℕ
  lostCount : ℤ
  trackScore : ℤ
  confidence : ℚ
  isTightlyCoupled : Bool
  isFirst : Bool
  detection : Option ℕ
  pathLength : ℕ
  previousVelocityNodeIndices : List ℕ

/-- A factor emitted by the tracker core during one step.  `tightDetection`
goes into the main graph `gtSAMgraph`; `looseDetection` and
`velocityPrior` into `gtSAMgraphForLooselyCoupledObjects`;
`constantVelocity` and `stablePose` into the main graph when `tight` and
into the loose sub-graph otherwise. -/
inductive Emission where
  | tightDetection (objectIndex : ℕ) (j : ℕ)
  | looseDetection (objectIndex : ℕ) (j : ℕ)
  | constantVelocity (objectIndex : ℕ) (tight : Bool) (early : Bool)
  | stablePose (objectIndex : ℕ) (tight : Bool)
  | velocityPrior (objectIndex : ℕ)
deriving DecidableEq, Repr

/-- The object index an emission refers to. -/
def Emission.objectIdx : Emission → ℕ
  | .tightDetection i _ => i
  | .looseDetection i _ => i
  | .constantVelocity i _ _ => i
  | .stablePose i _ => i
  | .velocityPrior i => i

/-- The result of processing one existing track inside `addDetectionFactor`
(lines 1959-2087): the updated track, the factors emitted for it, the
detection column marked in the indicator matrix (`indicator(i, j) = 1`),
and a `trackingObjectIndices[j] = objectIndexForTracking` write performed
when the track is retired in favour of a re-identified detection. -/
structure TrackStepResult (Pose : Type) where
  track : ObjectState Pose
  emissions : List Emission
  matched : Option ℕ
  transfer : Option (ℕ × ℕ)

/-- The per-track body of the data-association loop in `addDetectionFactor`
(mapOptimization.cpp lines 1960-2087).  `errs` gives, for each noise
profile, the residuals of every detection evaluated at the predicted pose
`invEgoPose * object.pose` (the residual arithmetic lives in the factor
headers outside `src/`); `est` is the solver estimate read by the
velocity-consistency test.  Faithful details: the increment of
`trackScore` is gated by `trackScore <= P` (line 1999); the promotion
check is on the incremented score (line 2004); inside the promotion
branch the detection index is re-bound to the argmin under the
tightly-coupled-matching profile (line 2014) and that re-bound index is
used by both the tight factor and the demotion's loose factor. -/
def detectionTrackStep {Pose : Type} (p : TrackerParams) (est : ℕ → Vec6)
    (errs : MatchProfile → List ℚ) (t : ObjectState Pose) : TrackStepResult Pose :=
  let je := getDetectionIndexAndError
    (errs (matchingProfile p.numberOfPreLooseCouplingSteps p.numberOfEarlySteps
      t.trackScore t.pathLength))
  let daJE := getDetectionIndexAndError (errs .dataAssociation)
  if je.2 < p.detectionMatchThreshold then
    if 0 < t.lostCount then
      { track := { t with lostCount := intMax }, emissions := [], matched := none,
        transfer := some (je.1, t.objectIndexForTracking) }
    else
      let score1 :=
        if t.trackScore ≤ p.numberOfPreLooseCouplingSteps then t.trackScore + 1 else t.trackScore
      let t1 := { t with lostCount := 0, trackScore := score1, detection := some je.1 }
      if p.numberOfPreLooseCouplingSteps + 1 ≤ score1 then
        let tje := getDetectionIndexAndError (errs .tightMatching)
        let temporal := velocityIsConsistent p.numberOfVelocityConsistencySteps est
          t.previousVelocityNodeIndices
          p.objectAngularVelocityConsistencyVarianceThreshold
          p.objectLinearVelocityConsistencyVarianceThreshold
        if tje.2 ≤ p.tightCouplingDetectionErrorThreshold ∧ temporal = true then
          { track := { t1 with isTightlyCoupled := true },
            emissions := [.tightDetection t.objectIndex tje.1],
            matched := some je.1, transfer := none }
        else
          { track := { t1 with
              trackScore := score1 - p.numberOfInterLooseCouplingSteps,
              isTightlyCoupled := false },
            emissions := [.looseDetection t.objectIndex tje.1],
            matched := some je.1, transfer := none }
      else
        { track := { t1 with isTightlyCoupled := false },
          emissions := [.looseDetection t.objectIndex je.1],
          matched := some je.1, transfer := none }
  else
    let t1 := { t with lostCount := t.lostCount + 1, confidence := 0, trackScore := 0 }
    if daJE.2 < p.detectionMatchThreshold then
      { track := { t1 with lostCount := intMax }, emissions := [], matched := none,
        transfer := some (daJE.1, t.objectIndexForTracking) }
    else
      { track := t1, emissions := [], matched := none, transfer := none }

/-- The pose operations the tracker core applies to SE(3) values.  The
numeric content of a pose never influences the tracker's control flow
(only the residuals do, and those are inputs), so the operations are kept
abstract: `mul`/`inv`/`one` are `gtsam::Pose3` composition, inverse and
identity, and `localScaledRetract v dt` is
`Retract(identity, Local(identity, v) * dt)` (lines 1762-1763). -/
structure PoseOps (Pose : Type) where
  one : Pose
  mul : Pose → Pose → Pose
  inv : Pose → Pose
  localScaledRetract : Pose → ℚ → Pose

/-- `uint64_t(-1)`, the sentinel written into the node indices of a
propagated-but-lost track (lines 1780-1781). -/
def uintNeg1 : ℕ := 18446744073709551615

/-- The tracker-visible state of the `mapOptimization` object: the epoch
sequence `objects`, the shared node counter `numberOfNodes` (only its
object-node allocations are modelled here), the object and tracking id
counters, and the `anyObjectIsTightlyCoupled` flag. -/
structure TrackerState (Pose : Type) where
  epochs : List (List (ObjectState Pose))
  numberOfNodes : ℕ
  numberOfRegisteredObjects : ℕ
  numberOfTrackingObjects : ℕ
  anyObjectIsTightlyCoupled : Bool

/-- The state before the first step: no epochs, all counters zero. -/
def initialTrackerState (Pose : Type) [Inhabited Pose] : TrackerState Pose :=
  { epochs := [], numberOfNodes := 0, numberOfRegisteredObjects := 0,
    numberOfTrackingObjects := 0, anyObjectIsTightlyCoupled := false }

/-- The propagation loop of `propagateObjectPoses` (lines 1754-1785),
threading the node counter: tracks with
`lostCount > trackingStepsForLostObject` are dropped; the rest are
propagated by the constant-velocity model; tracks with `lostCount == 0`
receive two fresh node ids and append their previous velocity node id to
`previousVelocityNodeIndices` (line 1778, a plain `push_back`); lost
tracks get the `uint64_t(-1)` sentinel indices. -/
def propagateTracks {Pose : Type} (ops : PoseOps Pose) (p : TrackerParams) (deltaTime : ℚ) :
    List (ObjectState Pose) → ℕ → List (ObjectState Pose) × ℕ
  | [], n => ([], n)
  | t :: ts, n =>
    if p.trackingStepsForLostObject < t.lostCount then propagateTracks ops p deltaTime ts n
    else
      let pose1 := ops.mul t.pose (ops.localScaledRetract t.velocity deltaTime)
      if t.lostCount = 0 then
        let t1 := { t with
          pose := pose1
          isFirst := false
          poseNodeIndex := n
          velocityNodeIndex := n + 1
          previousVelocityNodeIndices :=
            t.previousVelocityNodeIndices ++ [t.velocityNodeIndex] }
        let r := propagateTracks ops p deltaTime ts (n + 2)
        (t1 :: r.1, r.2)
      else
        let t1 := { t with
          pose := pose1
          isFirst := false
          poseNodeIndex := uintNeg1
          velocityNodeIndex := uintNeg1 }
        let r := propagateTracks ops p deltaTime ts n
        (t1 :: r.1, r.2)

/-- `propagateObjectPoses` (mapOptimization.cpp lines 1741-1795): pushes an
empty first epoch, otherwise propagates the last epoch into a new one.
(`ENABLE_MINIMAL_MEMORY_USAGE` is not defined in the source, so no epoch
is ever erased.) -/
def propagateObjectPoses {Pose : Type} (ops : PoseOps Pose) (p : TrackerParams)
    (deltaTime : ℚ) (s : TrackerState Pose) : TrackerState Pose :=
  if s.epochs.length = 0 then { s with epochs := [[]] }
  else
    let r := propagateTracks ops p deltaTime (s.epochs.getLastD []) s.numberOfNodes
    { s with epochs := s.epochs ++ [r.1], numberOfNodes := r.2 }

/-- The detection-dependent inputs of one `addDetectionFactor` call: the
contents of the shared `detections` buffer (`numDetections` boxes with
their poses), the per-track residuals (`errs objectIndex profile` lists
the residual of every detection under that noise profile at the track's
predicted pose `invEgoPose * pose`; the residual arithmetic lives in the
factor headers outside `src/`), the solver estimate tangents read by the
velocity-consistency test, and the current ego pose read from
`initialEstimate`. -/
structure DetectionInput (Pose : Type) where
  numDetections : ℕ
  detPoses : List Pose
  errs : ℕ → MatchProfile → List ℚ
  est : ℕ → Vec6
  egoPose : Pose

/-- Replace the last epoch of the state. -/
def setLastEpoch {Pose : Type} (s : TrackerState Pose) (e : List (ObjectState Pose)) :
    TrackerState Pose :=
  { s with epochs := s.epochs.dropLast ++ [e] }

/-- The result of the birth loop (lines 2097-2229). -/
structure BirthResult (Pose : Type) where
  tracks : List (ObjectState Pose)
  emissions : List Emission
  numberOfNodes : ℕ
  numberOfRegisteredObjects : ℕ
  numberOfTrackingObjects : ℕ

/-- The birth loop of `addDetectionFactor` (lines 2097-2229): every
detection column with an all-zero indicator (`matched idx = false`)
births a new track at `egoPose * detectionPose` with identity velocity,
fresh node ids and a fresh `objectIndex`; the `trackingObjectIndices`
writes (`transfers`, last write wins) decide whether the visualization
id is inherited or fresh.  Each birth emits a loosely-coupled detection
factor and (since `ENABLE_COMPACT_VERSION_OF_FACTOR_GRAPH` is not
defined) a weak prior on the initial velocity. -/
def birthLoop {Pose : Type} (ops : PoseOps Pose) (egoPose : Pose) (detPoses : List Pose)
    (matched : ℕ → Bool) (transfers : List (ℕ × ℕ)) :
    List ℕ → ℕ → ℕ → ℕ → BirthResult Pose
  | [], n, c, tc =>
    { tracks := [], emissions := [], numberOfNodes := n,
      numberOfRegisteredObjects := c, numberOfTrackingObjects := tc }
  | idx :: rest, n, c, tc =>
    if matched idx then birthLoop ops egoPose detPoses matched transfers rest n c tc
    else
      let inherited := (transfers.reverse.find? (fun pr => pr.1 = idx)).map (·.2)
      let t : ObjectState Pose :=
        { pose := ops.mul egoPose (detPoses.getD idx ops.one), velocity := ops.one,
          poseNodeIndex := n, velocityNodeIndex := n + 1, objectIndex := c,
          objectIndexForTracking := inherited.getD tc, lostCount := 0, trackScore := 0,
          confidence := 0, isTightlyCoupled := false, isFirst := true,
          detection := some idx, pathLength := 0, previousVelocityNodeIndices := [] }
      let tc1 := if inherited = none then tc + 1 else tc
      let r := birthLoop ops egoPose detPoses matched transfers rest (n + 2) (c + 1) tc1
      { r with
        tracks := t :: r.tracks
        emissions := [.looseDetection c idx, .velocityPrior c] ++ r.emissions }

/-- Whether a per-track result promoted its track (the branch that sets
`anyObjectIsTightlyCoupled = true`, line 2022). -/
def emittedTight {Pose : Type} (r : TrackStepResult Pose) : Bool :=
  r.emissions.any fun e => match e with
    | .tightDetection _ _ => true
    | _ => false

/-- `addDetectionFactor` (mapOptimization.cpp lines 1880-2230) at the epoch
level: clears `anyObjectIsTightlyCoupled`; with an empty detection buffer
either returns immediately (no epochs) or marks every track of the
current epoch lost (`lostCount++`, confidence zeroed); otherwise runs the
per-track association loop and then the birth loop.  The
`requiredMockDetection` transformation of the box poses only re-expresses
the buffered boxes in the latest keyframe frame and is absorbed into
`detPoses`/`errs`. -/
def addDetectionFactor {Pose : Type} (ops : PoseOps Pose) (p : TrackerParams)
    (inp : DetectionInput Pose) (s : TrackerState Pose) :
    TrackerState Pose × List Emission :=
  let s0 := { s with anyObjectIsTightlyCoupled := false }
  if inp.numDetections = 0 ∧ s.epochs.length = 0 then (s0, [])
  else if inp.numDetections = 0 then
    (setLastEpoch s0 ((s.epochs.getLastD []).map fun t =>
      { t with lostCount := t.lostCount + 1, confidence := 0 }), [])
  else
    let results := (s.epochs.getLastD []).map fun t =>
      detectionTrackStep p inp.est (inp.errs t.objectIndex) t
    let ems1 := (results.map (·.emissions)).flatten
    let transfers := results.filterMap (·.transfer)
    let matched := fun j => results.any (fun r => r.matched = some j)
    let b := birthLoop ops inp.egoPose inp.detPoses matched transfers
      (List.range inp.numDetections) s.numberOfNodes s.numberOfRegisteredObjects
      s.numberOfTrackingObjects
    ({ s with
       epochs := s.epochs.dropLast ++ [results.map (·.track) ++ b.tracks]
       numberOfNodes := b.numberOfNodes
       numberOfRegisteredObjects := b.numberOfRegisteredObjects
       numberOfTrackingObjects := b.numberOfTrackingObjects
       anyObjectIsTightlyCoupled := results.any emittedTight },
     ems1 ++ b.emissions)

/-- `addConstantVelocityFactor` (lines 1797-1828): for every non-first,
non-lost track of the current epoch, one constant-velocity factor between
the previous and current velocity nodes; main graph when tightly coupled,
loose sub-graph otherwise, with the early noise when the path length is
at most `numberOfEarlySteps`. -/
def addConstantVelocityFactor {Pose : Type} (p : TrackerParams) (s : TrackerState Pose) :
    List Emission :=
  if s.epochs.length < 2 then []
  else
    (s.epochs.getLastD []).filterMap fun t =>
      if t.isFirst then none
      else if 0 < t.lostCount then none
      else some (.constantVelocity t.objectIndex t.isTightlyCoupled
        (!t.isTightlyCoupled && decide (t.pathLength ≤ p.numberOfEarlySteps)))

/-- `addStablePoseFactor` (lines 1830-1878): for every non-first, non-lost
track of the current epoch, one stable-pose (constant body-frame twist)
factor; main graph when tightly coupled, loose sub-graph otherwise. -/
def addStablePoseFactor {Pose : Type} (s : TrackerState Pose) : List Emission :=
  if s.epochs.length < 2 then []
  else
    (s.epochs.getLastD []).filterMap fun t =>
      if t.isFirst then none
      else if 0 < t.lostCount then none
      else some (.stablePose t.objectIndex t.isTightlyCoupled)

/-- The per-step inputs of the tracking pipeline. -/
structure StepInput (Pose : Type) where
  deltaTime : ℚ
  detection : DetectionInput Pose

/-- The object-tracking portion of `saveKeyFramesAndFactor`
(lines 2271-2283): propagation, detection factors, constant-velocity
factors, stable-pose factors, in that order. -/
def trackingStep {Pose : Type} (ops : PoseOps Pose) (p : TrackerParams)
    (inp : StepInput Pose) (s : TrackerState Pose) : TrackerState Pose × List Emission :=
  let s1 := propagateObjectPoses ops p inp.deltaTime s
  let r := addDetectionFactor ops p inp.detection s1
  (r.1, r.2 ++ addConstantVelocityFactor p r.1 ++ addStablePoseFactor r.1)

/-- Iterated tracking steps, collecting every emitted factor. -/
def runTracking {Pose : Type} (ops : PoseOps Pose) (p : TrackerParams) :
    List (StepInput Pose) → TrackerState Pose → TrackerState Pose × List Emission
  | [], s => (s, [])
  | inp :: rest, s =>
    let r := trackingStep ops p inp s
    let r2 := runTracking ops p rest r.1
    (r2.1, r.2 ++ r2.2)

/-- `getDetections` (mapOptimization.cpp lines 552-559): clears
`detectionIsActive`, and only on a successful service call overwrites the
shared `detections` buffer and sets the flag.  On failure the buffer
keeps the previous step's contents. -/
def getDetections {Pose : Type} (reply : Option (DetectionInput Pose))
    (buffer : DetectionInput Pose) : DetectionInput Pose × Bool :=
  match reply with
  | some d => (d, true)
  | none => (buffer, false)

/-- A 6×6 rational matrix (`cv::Mat(6, 6, CV_32F)`). -/
abbrev Matrix6 := Fin 6 → Fin 6 → ℚ

/-- Delete entry `j` of a list (row or column removal in a cofactor
expansion). -/
def dropEntry {α : Type} (l : List α) (j : ℕ) : List α := l.take j ++ l.drop (j + 1)

/-- Determinant of a square matrix given as a list of rows, by first-row
Laplace expansion; `fuel` bounds the recursion depth and is always
instantiated with the number of rows. -/
def detListAux : ℕ → List (List ℚ) → ℚ
  | _, [] => 1
  | 0, _ :: _ => 1
  | fuel + 1, r :: rest =>
    ((List.range r.length).map fun j =>
      (-1 : ℚ) ^ j * r.getD j 0 * detListAux fuel (rest.map (fun row => dropEntry row j))).sum

/-- Determinant of a list-of-rows matrix. -/
def detList (rows : List (List ℚ)) : ℚ := detListAux rows.length rows

/-- The rows of a 6×6 matrix. -/
def matrixToLists (A : Matrix6) : List (List ℚ) :=
  (List.finRange 6).map fun i => (List.finRange 6).map fun j => A i j

/-- `cv::Mat::inv` on a 6×6 matrix, by the cofactor (adjugate) formula
`A⁻¹ i j = (det A)⁻¹ · (−1)^(i+j) · det (minor j i)`: equal to the matrix
inverse whenever the determinant is nonzero. -/
def matInv6 (A : Matrix6) : Matrix6 := fun i j =>
  (detList (matrixToLists A))⁻¹ *
    ((-1 : ℚ) ^ ((i : ℕ) + (j : ℕ)) *
      detList ((dropEntry (matrixToLists A) (j : ℕ)).map (fun row => dropEntry row (i : ℕ))))

/-- 6×6 matrix product. -/
def matMul6 (A B : Matrix6) : Matrix6 := fun i j =>
  ((List.finRange 6).map fun k => A i k * B k j).sum

/-- 6×6 matrix-vector product (`matX = matP * matX2`, line 1516). -/
def mulVec6 (A : Matrix6) (v : Vec6) : Vec6 := fun i =>
  ((List.finRange 6).map fun j => A i j * v j).sum

/-- Rational stand-in for `pcl::rad2deg` (`x * 180 / π`): π has no rational
value, so the fixed rational approximation `355/113` of π is used.  No
claim settled in this file depends on the numeric value of the
convergence threshold, only on `rad2deg 0 = 0`. -/
def rad2deg (x : ℚ) : ℚ := x * 180 * 113 / 355

/-- The number of degenerate eigen-directions found by the iteration-0 loop
of `LMOptimization` (lines 1498-1509): scanning `i = 5` down to `0`,
eigen-directions are counted (and their rows of `matV2` zeroed) while the
eigenvalue is below the threshold `100`, stopping at the first
eigenvalue that is not. -/
def degenerateRowCount (eigenvalues : Vec6) : ℕ :=
  ((List.finRange 6).reverse.takeWhile (fun i => decide (eigenvalues i < 100))).length

/-- `matV2`: a copy of the eigenvector matrix with the degenerate rows
zeroed (lines 1496-1509). -/
def zeroDegenerateRows (matV : Matrix6) (cnt : ℕ) : Matrix6 :=
  fun i j => if 6 - cnt ≤ (i : ℕ) then 0 else matV i j

/-- `matP = matV.inv() * matV2` (line 1510), the degeneracy projection
captured at iteration 0 and reused by every later iteration of the same
step. -/
def lmProjection (matV : Matrix6) (cnt : ℕ) : Matrix6 :=
  matMul6 (matInv6 matV) (zeroDegenerateRows matV cnt)

/-- The data one `LMOptimization` iteration consumes from the assembled
linear system: the number of selected correspondences
(`laserCloudOri->size()`), the `cv::solve(..., DECOMP_QR)` solution
`matX`, and the eigen-decomposition of `AᵀA` (eigenvalues in descending
order as produced by `cv::eigen`, consumed only at iteration 0). -/
structure LMIterInput where
  selNum : ℕ
  matX : Vec6
  eigenvalues : Vec6
  eigenvectors : Matrix6

/-- The scan-matcher state threaded across iterations and steps:
`transformTobeMapped` (ordered `[roll, pitch, yaw, x, y, z]`), and the
member variables `isDegenerate` and `matP`, which persist across LiDAR
steps. -/
structure ScanState where
  transform : Vec6
  isDegenerate : Bool
  matP : Matrix6

/-- `LMOptimization` (mapOptimization.cpp lines 1427-1539).  Fewer than 50
selected correspondences returns `false` (keep optimizing) before
touching anything — no pose update, no degeneracy check, and no warning.
At iteration 0 the degeneracy flag and projection are recomputed; when
degenerate, the update is projected through the stored `matP`.  The
convergence test `sqrt(Σ deg²) < 0.05 ∧ sqrt(Σ (100·t)²) < 0.05` is
modelled by comparing squares (equivalent, as `sqrt` is monotone and the
bounds are positive). -/
def LMOptimization (inp : LMIterInput) (iterCount : ℕ) (s : ScanState) : ScanState × Bool :=
  if inp.selNum < 50 then (s, false)
  else
    let s1 :=
      if iterCount = 0 then
        let cnt := degenerateRowCount inp.eigenvalues
        { s with
          isDegenerate := decide (0 < cnt)
          matP := lmProjection inp.eigenvectors cnt }
      else s
    let x : Vec6 := if s1.isDegenerate then mulVec6 s1.matP inp.matX else inp.matX
    let s2 := { s1 with transform := fun d => s1.transform d + x d }
    let deltaRsq := rad2deg (x 0) ^ 2 + rad2deg (x 1) ^ 2 + rad2deg (x 2) ^ 2
    let deltaTsq := (x 3 * 100) ^ 2 + (x 4 * 100) ^ 2 + (x 5 * 100) ^ 2
    (s2, decide (deltaRsq < (5 / 100) ^ 2 ∧ deltaTsq < (5 / 100) ^ 2))

/-- The iteration loop of `scan2MapOptimization` (lines 1549-1560): run
`LMOptimization` on successive assembled systems, stopping early on
convergence.  The caller bounds the list to 30 entries. -/
def lmLoop : List LMIterInput → ℕ → ScanState → ScanState
  | [], _, s => s
  | inp :: rest, iterCount, s =>
    let r := LMOptimization inp iterCount s
    if r.2 then r.1 else lmLoop rest (iterCount + 1) r.1

/-- The scan-matching parameters the matcher reads (source member names). -/
structure ScanParams where
  edgeFeatureMinValidNum : ℤ
  surfFeatureMinValidNum : ℤ
  imuRPYWeight : ℚ
  rotation_tollerance : ℚ
  z_tollerance : ℚ

/-- `constraintTransformation` (lines 1597-1604): two sequential clamps
(not an else-chain, faithful to the source). -/
def constraintTransformation (value limit : ℚ) : ℚ :=
  let v1 := if value < -limit then -limit else value
  if limit < v1 then limit else v1

/-- `transformUpdate` (lines 1568-1595): when IMU is available and the
initial pitch magnitude is below 1.4 rad, roll and pitch are SLERP-blended
with the IMU at weight `imuRPYWeight`; roll, pitch and z are then clamped.
The quaternion SLERP itself is `tf::Quaternion::slerp`, an external
library routine, and is passed in abstractly as `slerp transformAngle
imuAngle weight`. -/
def transformUpdate (slerp : ℚ → ℚ → ℚ → ℚ) (p : ScanParams) (imuAvailable : Bool)
    (imuRollInit imuPitchInit : ℚ) (t : Vec6) : Vec6 :=
  let t1 : Vec6 :=
    if imuAvailable = true ∧ |imuPitchInit| < 14 / 10 then
      fun d =>
        if d = 0 then slerp (t 0) imuRollInit p.imuRPYWeight
        else if d = 1 then slerp (t 1) imuPitchInit p.imuRPYWeight
        else t d
    else t
  fun d =>
    if d = 0 then constraintTransformation (t1 0) p.rotation_tollerance
    else if d = 1 then constraintTransformation (t1 1) p.rotation_tollerance
    else if d = 5 then constraintTransformation (t1 5) p.z_tollerance
    else t1 d

/-- The warning emitted by `scan2MapOptimization` (line 1564). -/
inductive ScanWarning where
  | notEnoughFeatures (corner surf : ℤ)
deriving DecidableEq, Repr

/-- The per-step inputs of `scan2MapOptimization`. -/
structure ScanInput where
  keyPosesEmpty : Bool
  laserCloudCornerLastDSNum : ℤ
  laserCloudSurfLastDSNum : ℤ
  iters : List LMIterInput
  imuAvailable : Bool
  imuRollInit : ℚ
  imuPitchInit : ℚ

/-- `scan2MapOptimization` (mapOptimization.cpp lines 1541-1566): skipped
entirely before the first keyframe; with enough input features it runs at
most 30 LM iterations followed by `transformUpdate`; otherwise it emits
the `Not enough features!` warning and leaves the state untouched.  The
returned list collects every `ROS_WARN` of this call. -/
def scan2MapOptimization (slerp : ℚ → ℚ → ℚ → ℚ) (p : ScanParams) (inp : ScanInput)
    (s : ScanState) : ScanState × List ScanWarning :=
  if inp.keyPosesEmpty then (s, [])
  else if p.edgeFeatureMinValidNum < inp.laserCloudCornerLastDSNum ∧
      p.surfFeatureMinValidNum < inp.laserCloudSurfLastDSNum then
    let s1 := lmLoop (inp.iters.take 30) 0 s
    ({ s1 with
       transform := transformUpdate slerp p inp.imuAvailable inp.imuRollInit
         inp.imuPitchInit s1.transform }, [])
  else (s, [.notEnoughFeatures inp.laserCloudCornerLastDSNum inp.laserCloudSurfLastDSNum])

/-- Whether the step's scan matching reached the iteration-0 degeneracy
check, and what it found there: `some b` when the eigendecomposition at
iteration 0 was performed and flagged `b`, `none` when the step never
reached it (no keyframes yet, too few input features, or fewer than 50
correspondences at iteration 0).  This is the claim's notion of "scan
matching flagged degeneracy for that step". -/
def degeneracyCheckedThisStep (p : ScanParams) (inp : ScanInput) : Option Bool :=
  if inp.keyPosesEmpty then none
  else if p.edgeFeatureMinValidNum < inp.laserCloudCornerLastDSNum ∧
      p.surfFeatureMinValidNum < inp.laserCloudSurfLastDSNum then
    match inp.iters.take 30 with
    | [] => none
    | i0 :: _ => if i0.selNum < 50 then none
      else some (decide (0 < degenerateRowCount i0.eigenvalues))
  else none

/-- The `covariance[0]` written by `publishOdometry` into the incremental
odometry message (lines 2505-2550): the very first published message is a
copy of the global odometry message (covariance all zero); afterwards it
is 1 when `isDegenerate` and 0 otherwise. -/
def publishOdometryCov0 (lastIncreOdomPubFlag : Bool) (isDegenerate : Bool) : ℚ :=
  if lastIncreOdomPubFlag = false then 0
  else if isDegenerate then 1 else 0

/-- The scan/publish state threaded across LiDAR steps for the
incremental-odometry observable. -/
structure OdomDriverState where
  scan : ScanState
  lastIncreOdomPubFlag : Bool

/-- One LiDAR step of the driver restricted to the scan-matching and
incremental-odometry-publication observables: `scan2MapOptimization`
followed by `publishOdometry`, whose feature-condition arm never touches
`isDegenerate`. -/
def mappingOdometryStep (slerp : ℚ → ℚ → ℚ → ℚ) (p : ScanParams) (inp : ScanInput)
    (s : OdomDriverState) : OdomDriverState × ℚ :=
  let r := scan2MapOptimization slerp p inp s.scan
  (⟨r.1, true⟩, publishOdometryCov0 s.lastIncreOdomPubFlag r.1.isDegenerate)

/-- Iterated driver steps, collecting the published `covariance[0]`
values in order. -/
def runOdometry (slerp : ℚ → ℚ → ℚ → ℚ) (p : ScanParams) :
    List ScanInput → OdomDriverState → OdomDriverState × List ℚ
  | [], s => (s, [])
  | inp :: rest, s =>
    let r := mappingOdometryStep slerp p inp s
    let r2 := runOdometry slerp p rest r.1
    (r2.1, r.2 :: r2.2)

/-- A call to the incremental solver: `update(graph, values)` or the
re-linearization-only `update()`. -/
inductive IsamCall where
  | updateWith
  | updateEmpty
deriving DecidableEq, Repr

/-- The solver calls issued by one `saveKeyFramesAndFactor` step
(mapOptimization.cpp lines 2296-2315): the batched `update` plus one
sweep, five further sweeps when `aLoopIsClosed`, then — only when the
loosely-coupled sub-graph is nonempty — its batched `update` plus one
sweep. -/
def isamCallSequence (aLoopIsClosed : Bool) (looseGraphNonempty : Bool) : List IsamCall :=
  [.updateWith, .updateEmpty] ++
    (if aLoopIsClosed then
      [.updateEmpty, .updateEmpty, .updateEmpty, .updateEmpty, .updateEmpty] else []) ++
    (if looseGraphNonempty then [.updateWith, .updateEmpty] else [])

/-- A stored keyframe pose (`PointTypePose`, 6-DoF plus its timestamp). -/
structure KeyPose where
  x : ℚ
  y : ℚ
  z : ℚ
  roll : ℚ
  pitch : ℚ
  yaw : ℚ
  time : ℚ
deriving DecidableEq, Repr, Inhabited

/-- The state read and written by `correctPoses`: the keyframe pose store
`cloudKeyPoses6D` (with `cloudKeyPoses3D` its projection), the node id of
each keyframe, the sub-map cache `laserCloudMapContainer` (only its key
set matters here), the published `globalPath`, and the two correction
flags. -/
structure CorrectState where
  keyPoses : List KeyPose
  keyPoseIndices : List ℕ
  laserCloudMapContainer : List ℕ
  globalPath : List KeyPose
  aLoopIsClosed : Bool
  anyObjectIsTightlyCoupled : Bool
deriving DecidableEq, Repr

/-- `correctPoses` (mapOptimization.cpp lines 2439-2468): after a loop
closure or a tight-coupling event, the sub-map cache is cleared, the path
is cleared and rebuilt, and every stored keyframe pose is rewritten from
the solver estimate at its node id (the stored timestamp is kept — the
loop assigns only the six pose components); finally `aLoopIsClosed` is
reset.  `isamCurrentEstimate idx` carries the estimate's pose components;
its `time` field is never read. -/
def correctPoses (isamCurrentEstimate : ℕ → KeyPose) (s : CorrectState) : CorrectState :=
  if s.keyPoses.length = 0 then s
  else if s.aLoopIsClosed = true ∨ s.anyObjectIsTightlyCoupled = true then
    let numPoses := s.keyPoseIndices.length
    let rewritten := (List.range numPoses).map fun i =>
      { isamCurrentEstimate (s.keyPoseIndices.getD i 0) with
        time := (s.keyPoses.getD i default).time }
    { s with
      laserCloudMapContainer := []
      globalPath := rewritten
      keyPoses := rewritten ++ s.keyPoses.drop numPoses
      aLoopIsClosed := false }
  else s

/-- `saveFrame` (mapOptimization.cpp lines 1606-1624): the first frame is
always a keyframe; afterwards the frame is rejected exactly when every
relative Euler angle is below `surroundingkeyframeAddingAngleThreshold`
and the relative translation is below
`surroundingkeyframeAddingDistThreshold`.  The inputs
`roll, pitch, yaw, x, y, z` are the components of
`transStart.inverse() * transFinal` as extracted by
`pcl::getTranslationAndEulerAngles`; the source's
`sqrt(x² + y² + z²) < thr` is modelled by comparing squares (equivalent
for a nonnegative threshold). -/
def saveFrame (cloudKeyPosesEmpty : Bool) (addingAngleThreshold addingDistThreshold : ℚ)
    (roll pitch yaw x y z : ℚ) : Bool :=
  if cloudKeyPosesEmpty then true
  else if |roll| < addingAngleThreshold ∧ |pitch| < addingAngleThreshold ∧
      |yaw| < addingAngleThreshold ∧
      x ^ 2 + y ^ 2 + z ^ 2 < addingDistThreshold ^ 2 then false
  else true

/-- A factor emitted by `addOdomFactor`. -/
inductive OdomFactor (Pose : Type) where
  | priorFactor (key : ℕ) (pose : Pose)
  | betweenFactor (keyFrom keyTo : ℕ) (relative : Pose)

/-- `addOdomFactor` (mapOptimization.cpp lines 1626-1650): the first frame
allocates node 0 and receives a prior factor at the current pose
`trans2gtsamPose(transformTobeMapped)`; every later keyframe allocates a
fresh node and adds `BetweenFactor(prev, cur, poseFrom.between(poseTo))`,
where `gtsam::Pose3::between(p, q) = p⁻¹ · q`, `poseFrom` is the stored
pose of the previous keyframe and `poseTo` the current pose.  Returns the
factor, the updated `keyPoseIndices` and the updated node counter. -/
def addOdomFactor {Pose : Type} (ops : PoseOps Pose) (keyPoseIndices : List ℕ)
    (numberOfNodes : ℕ) (cloudKeyPosesEmpty : Bool) (poseFrom poseTo : Pose) :
    OdomFactor Pose × List ℕ × ℕ :=
  if cloudKeyPosesEmpty then
    (.priorFactor 0 poseTo, keyPoseIndices ++ [numberOfNodes], numberOfNodes + 1)
  else
    (.betweenFactor (keyPoseIndices.getLastD 0) numberOfNodes
      (ops.mul (ops.inv poseFrom) poseTo),
     keyPoseIndices ++ [numberOfNodes], numberOfNodes + 1)

/-- The matching-profile dispatch exactly as claim C4 words it: the
loosely-coupled-matching profile only for `trackScore == P+1`, then the
early-loose profile by path length, then the loose-matching profile.
Defined only to be compared with `matchingProfile`, the dispatch of the
source. -/
def matchingProfileClaimC4 (preLooseCouplingSteps : ℤ) (earlySteps : ℕ)
    (trackScore : ℤ) (pathLength : ℕ) : MatchProfile :=
  if trackScore = preLooseCouplingSteps + 1 then .looseMatching
  else if pathLength ≤ earlySteps then .earlyLooseMatching
  else .looseMatching

/-- The keyframe condition exactly as claim C9 words it: a new keyframe
if and only if the translation strictly exceeds the distance threshold or
some absolute Euler angle strictly exceeds the angle threshold (squares
compared, as in `saveFrame`).  Defined only to be compared with
`saveFrame`. -/
def saveFrameClaimC9 (cloudKeyPosesEmpty : Bool) (addingAngleThreshold addingDistThreshold : ℚ)
    (roll pitch yaw x y z : ℚ) : Bool :=
  if cloudKeyPosesEmpty then true
  else decide (addingDistThreshold ^ 2 < x ^ 2 + y ^ 2 + z ^ 2 ∨
    addingAngleThreshold < |roll| ∨ addingAngleThreshold < |pitch| ∨
    addingAngleThreshold < |yaw|)

/-- The incremental-odometry `covariance[0]` exactly as claim C8 words it:
1 when scan matching flagged degeneracy for that step, 0 otherwise.
Defined only to be compared with the published value. -/
def covClaimC8 (p : ScanParams) (inp : ScanInput) : ℚ :=
  if degeneracyCheckedThisStep p inp = some true then 1 else 0

/-- Claim C2's invariant P1: every track of every epoch has
`0 ≤ trackScore ≤ P+1`. -/
def trackScoreInvariant {Pose : Type} (p : TrackerParams) (s : TrackerState Pose) : Prop :=
  ∀ e ∈ s.epochs, ∀ t ∈ e, 0 ≤ t.trackScore ∧
    t.trackScore ≤ p.numberOfPreLooseCouplingSteps + 1

/-- The hypothesis of claim C5: object id `r` was allocated earlier
(`r < numberOfRegisteredObjects`) and every track with id `r` in the
current epoch is lost beyond `trackingStepsForLostObject`. -/
def retiredInvariant {Pose : Type} (p : TrackerParams) (r : ℕ) (s : TrackerState Pose) : Prop :=
  r < s.numberOfRegisteredObjects ∧
    ∀ t ∈ s.epochs.getLastD [], t.objectIndex = r → p.trackingStepsForLostObject < t.lostCount

/-- Trivial pose operations on `PUnit`, used to evaluate the tracker model
at concrete inputs. -/
def unitPoseOps : PoseOps PUnit :=
  { one := PUnit.unit, mul := fun _ _ => PUnit.unit, inv := fun _ => PUnit.unit,
    localScaledRetract := fun _ _ => PUnit.unit }

/-- Concrete tracker parameters for evaluating the model: `P = 0`,
`numberOfInterLooseCouplingSteps = 2`, `K = 1`. -/
def cexParams : TrackerParams :=
  { trackingStepsForLostObject := 3, numberOfPreLooseCouplingSteps := 0,
    numberOfInterLooseCouplingSteps := 2, numberOfEarlySteps := 3,
    numberOfVelocityConsistencySteps := 1, detectionMatchThreshold := 1,
    tightCouplingDetectionErrorThreshold := 1,
    objectAngularVelocityConsistencyVarianceThreshold := 1,
    objectLinearVelocityConsistencyVarianceThreshold := 1 }

/-- Concrete residuals: every detection matches perfectly under every
profile except the tightly-coupled-matching one, whose residual 10 fails
the tight gate. -/
def cexErrs : ℕ → MatchProfile → List ℚ := fun _ pr =>
  match pr with
  | .tightMatching => [10]
  | _ => [0]

/-- A one-box detection buffer over the trivial pose type. -/
def cexDetection : DetectionInput PUnit :=
  { numDetections := 1, detPoses := [PUnit.unit], errs := cexErrs,
    est := fun _ => Vec6.zero, egoPose := PUnit.unit }

/-- A step consuming `cexDetection`. -/
def cexStep : StepInput PUnit := { deltaTime := 1, detection := cexDetection }

/-- A track with a one-entry velocity-node history about to be propagated
(for the history-growth evaluation). -/
def c10Track : ObjectState PUnit :=
  { pose := PUnit.unit, velocity := PUnit.unit, poseNodeIndex := 6, velocityNodeIndex := 7,
    objectIndex := 0, objectIndexForTracking := 0, lostCount := 0, trackScore := 1,
    confidence := 1, isTightlyCoupled := false, isFirst := false, detection := none,
    pathLength := 2, previousVelocityNodeIndices := [5] }

/-- A tracker state holding only `c10Track`. -/
def c10State : TrackerState PUnit :=
  { epochs := [[c10Track]], numberOfNodes := 8, numberOfRegisteredObjects := 1,
    numberOfTrackingObjects := 1, anyObjectIsTightlyCoupled := false }

/-- A track eligible for tight coupling (all residuals zero, one velocity
sample with `K = 1`): used to witness the promotion gate. -/
def tightErrs : ℕ → MatchProfile → List ℚ := fun _ _ => [0]

/-- A track with `trackScore = P + 1 = 1` and a one-entry history. -/
def tightTrack : ObjectState PUnit :=
  { c10Track with trackScore := 1, previousVelocityNodeIndices := [5] }

/-- Identity stand-in for the abstract SLERP blend. -/
def idSlerp : ℚ → ℚ → ℚ → ℚ := fun a _ _ => a

/-- Concrete scan-matching parameters. -/
def cexScanParams : ScanParams :=
  { edgeFeatureMinValidNum := 10, surfFeatureMinValidNum := 100, imuRPYWeight := 1 / 100,
    rotation_tollerance := 1000, z_tollerance := 1000 }

/-- An assembled iteration with only 49 selected correspondences. -/
def smallCorrIter : LMIterInput :=
  { selNum := 49, matX := Vec6.zero, eigenvalues := Vec6.zero, eigenvectors := 0 }

/-- A step whose every iteration selects fewer than 50 correspondences
(with enough input features to enter the optimization). -/
def smallCorrScanInput : ScanInput :=
  { keyPosesEmpty := false, laserCloudCornerLastDSNum := 100, laserCloudSurfLastDSNum := 200,
    iters := List.replicate 30 smallCorrIter, imuAvailable := false, imuRollInit := 0,
    imuPitchInit := 0 }

/-- The zeroed scan state. -/
def zeroScanState : ScanState := { transform := Vec6.zero, isDegenerate := false, matP := 0 }

/-- An iteration whose `AᵀA` eigenvalues are all below 100: degeneracy is
flagged at iteration 0 and the zero update converges immediately. -/
def degenerateIter : LMIterInput :=
  { selNum := 60, matX := Vec6.zero, eigenvalues := Vec6.zero, eigenvectors := 0 }

/-- Step 1 of the degeneracy scenario: before the first keyframe. -/
def c8Step1 : ScanInput :=
  { keyPosesEmpty := true, laserCloudCornerLastDSNum := 0, laserCloudSurfLastDSNum := 0,
    iters := [], imuAvailable := false, imuRollInit := 0, imuPitchInit := 0 }

/-- Step 2: degenerate scan matching. -/
def c8Step2 : ScanInput :=
  { keyPosesEmpty := false, laserCloudCornerLastDSNum := 100, laserCloudSurfLastDSNum := 200,
    iters := [degenerateIter], imuAvailable := false, imuRollInit := 0, imuPitchInit := 0 }

/-- Step 3: too few edge features, scan matching skipped entirely. -/
def c8Step3 : ScanInput :=
  { keyPosesEmpty := false, laserCloudCornerLastDSNum := 5, laserCloudSurfLastDSNum := 200,
    iters := [], imuAvailable := false, imuRollInit := 0, imuPitchInit := 0 }

/-- The driver state before the first step. -/
def initialOdomState : OdomDriverState := { scan := zeroScanState, lastIncreOdomPubFlag := false }

/-- A correction state with one keyframe, a nonempty sub-map cache and the
loop flag set. -/
def c6State : CorrectState :=
  { keyPoses := [{ x := 1, y := 2, z := 3, roll := 4, pitch := 5, yaw := 6, time := 7 }],
    keyPoseIndices := [0], laserCloudMapContainer := [3], globalPath := [],
    aLoopIsClosed := true, anyObjectIsTightlyCoupled := false }

/-- A concrete solver estimate for the correction scenario. -/
def c6Est : ℕ → KeyPose := fun _ =>
  { x := 10, y := 11, z := 12, roll := 13, pitch := 14, yaw := 15, time := 0 }

/-- A driver state carrying a stale degeneracy flag from an earlier
step. -/
def c8StaleState : OdomDriverState :=
  { scan := { transform := Vec6.zero, isDegenerate := true, matP := 0 },
    lastIncreOdomPubFlag := true }

/-- Parameters with `numberOfInterLooseCouplingSteps = 1 ≤ P + 1`. -/
def okParams : TrackerParams :=
  { cexParams with numberOfInterLooseCouplingSteps := 1 }

/-- A track retired beyond `trackingStepsForLostObject = 3`. -/
def retiredTrack : ObjectState PUnit :=
  { c10Track with lostCount := 100 }

/-- A state whose only current-epoch track is retired. -/
def retiredState : TrackerState PUnit :=
  { epochs := [[retiredTrack]], numberOfNodes := 8, numberOfRegisteredObjects := 1,
    numberOfTrackingObjects := 1, anyObjectIsTightlyCoupled := false }

/-- An empty detection buffer (no successful service response yet). -/
def emptyBuffer : DetectionInput PUnit :=
  { numDetections := 0, detPoses := [], errs := fun _ _ => [],
    est := fun _ => Vec6.zero, egoPose := PUnit.unit }

/-! ## Theorems -/

/-- **C4, counterexample.**  The claim gates the first branch of the
data-association dispatch on `trackScore == P+1`; the source
(line 1973) gates it on `trackScore >= P`.  With `P = 1`,
`numberOfEarlySteps = 3`, a track with `trackScore = 1 = P` and path
length `0`: the code selects the loosely-coupled-matching profile, the
claim's dispatch the early-loose-matching profile. -/
theorem matchingProfile_claimC4_counterexample :
    matchingProfile 1 3 1 0 = MatchProfile.looseMatching ∧
    matchingProfileClaimC4 1 3 1 0 = MatchProfile.earlyLooseMatching ∧
    matchingProfile 1 3 1 0 ≠ matchingProfileClaimC4 1 3 1 0 := by
  with_unfolding_all decide

/-- **C4, amended.**  During data association, a track whose `trackScore`
is at least `P = numberOfPreLooseCouplingSteps` is matched against the
loosely-coupled-matching noise profile; any other track whose path
length is at most `numberOfEarlySteps` is matched against the
early-loose-matching profile, and every remaining track against the
loose-matching profile. -/
theorem matchingProfile_amendedC4 (P : ℤ) (earlySteps : ℕ) (trackScore : ℤ) (pathLength : ℕ) :
    (P ≤ trackScore → matchingProfile P earlySteps trackScore pathLength =
      MatchProfile.looseMatching) ∧
    (trackScore < P → pathLength ≤ earlySteps →
      matchingProfile P earlySteps trackScore pathLength = MatchProfile.earlyLooseMatching) ∧
    (trackScore < P → earlySteps < pathLength →
      matchingProfile P earlySteps trackScore pathLength = MatchProfile.looseMatching) := by
  unfold matchingProfile
  refine ⟨fun h => ?_, fun h1 h2 => ?_, fun h1 h2 => ?_⟩
  · rw [if_pos h]
  · rw [if_neg (by omega), if_pos h2]
  · rw [if_neg (by omega), if_neg (by omega)]

/-- Witness for the amended C4 dispatch at concrete inputs. -/
theorem matchingProfile_amendedC4_witness :
    matchingProfile 1 3 2 0 = MatchProfile.looseMatching ∧
    matchingProfile 1 3 0 0 = MatchProfile.earlyLooseMatching ∧
    matchingProfile 1 3 0 5 = MatchProfile.looseMatching :=
  ⟨(matchingProfile_amendedC4 1 3 2 0).1 (by decide),
   (matchingProfile_amendedC4 1 3 0 0).2.1 (by decide) (by decide),
   (matchingProfile_amendedC4 1 3 0 5).2.2 (by decide) (by decide)⟩

/-- **C9, counterexample.**  The claim says a keyframe is added iff the
translation strictly exceeds the distance threshold or an angle strictly
exceeds the angle threshold.  At the boundary — thresholds 1, zero
rotation, relative translation of exactly 1 — the source adds the
keyframe (`saveFrame` negates strict `<` bounds, line 1617-1621), while
the claim's condition does not. -/
theorem saveFrame_claimC9_counterexample :
    saveFrame false 1 1 0 0 0 1 0 0 = true ∧
    saveFrameClaimC9 false 1 1 0 0 0 1 0 0 = false := by
  with_unfolding_all decide

/-- **C9, amended.**  A new keyframe is added if and only if, relative to
the last keyframe, some absolute Euler angle is at least
`addAngleThreshold` or the translation is at least `addDistThreshold`
(squares compared); the first frame is always a keyframe and receives a
prior factor at node 0 with the current pose, and every subsequent
keyframe adds a `BetweenFactor` whose relative pose is
`poseFrom⁻¹ · poseTo` at the moment of emission. -/
theorem saveFrame_addOdomFactor_amendedC9 {Pose : Type} (ops : PoseOps Pose)
    (angThr distThr roll pitch yaw x y z : ℚ) (keyPoseIndices : List ℕ) (n : ℕ)
    (poseFrom poseTo : Pose) :
    (saveFrame false angThr distThr roll pitch yaw x y z = true ↔
      (angThr ≤ |roll| ∨ angThr ≤ |pitch| ∨ angThr ≤ |yaw| ∨
        distThr ^ 2 ≤ x ^ 2 + y ^ 2 + z ^ 2)) ∧
    saveFrame true angThr distThr roll pitch yaw x y z = true ∧
    (addOdomFactor ops keyPoseIndices n true poseFrom poseTo).1 =
      OdomFactor.priorFactor 0 poseTo ∧
    (addOdomFactor ops keyPoseIndices n false poseFrom poseTo).1 =
      OdomFactor.betweenFactor (keyPoseIndices.getLastD 0) n
        (ops.mul (ops.inv poseFrom) poseTo) := by
  refine ⟨?_, rfl, rfl, rfl⟩
  have hred : saveFrame false angThr distThr roll pitch yaw x y z = true ↔
      ¬(|roll| < angThr ∧ |pitch| < angThr ∧ |yaw| < angThr ∧
        x ^ 2 + y ^ 2 + z ^ 2 < distThr ^ 2) := by
    unfold saveFrame
    by_cases hC : (|roll| < angThr ∧ |pitch| < angThr ∧ |yaw| < angThr ∧
        x ^ 2 + y ^ 2 + z ^ 2 < distThr ^ 2)
    · simp [hC]
    · simp [hC]
  rw [hred]
  simp only [not_and_or, not_lt]

/-- **C6.**  When `aLoopIsClosed` is set, the driver issues five extra
`update()` sweeps beyond the normal call sequence, and `correctPoses`
clears the sub-map cache, rewrites every stored keyframe pose from the
solver estimate (keeping the stored timestamp), rebuilds the published
path from exactly those corrected poses, and resets the flag. -/
theorem loopClosure_fiveExtraUpdates_C6 (looseNonempty : Bool) (est : ℕ → KeyPose)
    (s : CorrectState) (hloop : s.aLoopIsClosed = true) (hne : ¬ s.keyPoses.length = 0)
    (hlen : s.keyPoses.length = s.keyPoseIndices.length) :
    (isamCallSequence true looseNonempty).length =
      (isamCallSequence false looseNonempty).length + 5 ∧
    (correctPoses est s).laserCloudMapContainer = [] ∧
    (correctPoses est s).keyPoses =
      (List.range s.keyPoseIndices.length).map (fun i =>
        { est (s.keyPoseIndices.getD i 0) with time := (s.keyPoses.getD i default).time }) ∧
    (correctPoses est s).globalPath = (correctPoses est s).keyPoses ∧
    (correctPoses est s).aLoopIsClosed = false := by
  have hcalls : (isamCallSequence true looseNonempty).length =
      (isamCallSequence false looseNonempty).length + 5 := by
    cases looseNonempty <;> rfl
  have hdrop : s.keyPoses.drop s.keyPoseIndices.length = [] := by
    rw [← hlen]
    exact List.drop_length s.keyPoses
  unfold correctPoses
  rw [if_neg hne, if_pos (Or.inl hloop)]
  refine ⟨hcalls, rfl, ?_, ?_, rfl⟩
  · show (List.range s.keyPoseIndices.length).map _ ++ s.keyPoses.drop s.keyPoseIndices.length = _
    rw [hdrop, List.append_nil]
  · show (List.range s.keyPoseIndices.length).map _ =
      (List.range s.keyPoseIndices.length).map _ ++ s.keyPoses.drop s.keyPoseIndices.length
    rw [hdrop, List.append_nil]

/-- Witness for C6 at a one-keyframe state with the loop flag set. -/
theorem loopClosure_fiveExtraUpdates_C6_witness :
    (isamCallSequence true false).length = (isamCallSequence false false).length + 5 ∧
    (correctPoses c6Est c6State).laserCloudMapContainer = [] ∧
    (correctPoses c6Est c6State).keyPoses =
      (List.range c6State.keyPoseIndices.length).map (fun i =>
        { c6Est (c6State.keyPoseIndices.getD i 0) with
          time := (c6State.keyPoses.getD i default).time }) ∧
    (correctPoses c6Est c6State).globalPath = (correctPoses c6Est c6State).keyPoses ∧
    (correctPoses c6Est c6State).aLoopIsClosed = false :=
  loopClosure_fiveExtraUpdates_C6 false c6Est c6State rfl (by decide) (by decide)

/-- **C3, counterexample.**  On a failed detection call `getDetections`
leaves the shared buffer holding the previous step's boxes (lines
552-559); the step is then processed with those stale detections rather
than as detection-free.  Concretely: the service does not reply
(`reply = none`), the buffer still holds one box from before, the epoch
is empty — and the step births one new track, contradicting "no new
tracks are born in that step". -/
theorem getDetections_claimC3_counterexample :
    getDetections none cexDetection = (cexDetection, false) ∧
    (((trackingStep unitPoseOps cexParams
        { deltaTime := 1, detection := (getDetections none cexDetection).1 }
        (initialTrackerState PUnit)).1.epochs.getLastD []).map (fun t => t.isFirst)) =
      [true] := by
  refine ⟨rfl, ?_⟩
  with_unfolding_all decide

/-- **C3, amended.**  A failed detection call leaves the previous response
in the buffer; a step is treated as detection-free only when that buffer
is empty (for instance when no service call has succeeded yet).  In that
detection-free case, every track of the current epoch has `lostCount`
incremented and its confidence zeroed, no new tracks are born, and no
detection factors are emitted. -/
theorem detectionFree_amendedC3 {Pose : Type} (ops : PoseOps Pose) (p : TrackerParams)
    (buffer : DetectionInput Pose) (s : TrackerState Pose)
    (hb : buffer.numDetections = 0) (hne : ¬ s.epochs.length = 0) :
    (getDetections none buffer).2 = false ∧
    (getDetections none buffer).1 = buffer ∧
    (addDetectionFactor ops p buffer s).1.epochs.getLastD [] =
      (s.epochs.getLastD []).map
        (fun t => { t with lostCount := t.lostCount + 1, confidence := 0 }) ∧
    (addDetectionFactor ops p buffer s).1.epochs.length = s.epochs.length ∧
    (addDetectionFactor ops p buffer s).2 = [] := by
  refine ⟨rfl, rfl, ?_, ?_, ?_⟩
  · unfold addDetectionFactor
    rw [if_neg (fun hc => hne hc.2), if_pos hb]
    simp [setLastEpoch]
  · unfold addDetectionFactor
    rw [if_neg (fun hc => hne hc.2), if_pos hb]
    simp only [setLastEpoch, List.length_append, List.length_dropLast, List.length_singleton]
    omega
  · unfold addDetectionFactor
    rw [if_neg (fun hc => hne hc.2), if_pos hb]

/-- Witness for the amended C3 at a one-track state with an empty
buffer. -/
theorem detectionFree_amendedC3_witness :
    (getDetections none emptyBuffer).2 = false ∧
    (getDetections none emptyBuffer).1 = emptyBuffer ∧
    (addDetectionFactor unitPoseOps cexParams emptyBuffer c10State).1.epochs.getLastD [] =
      (c10State.epochs.getLastD []).map
        (fun t => { t with lostCount := t.lostCount + 1, confidence := 0 }) ∧
    (addDetectionFactor unitPoseOps cexParams emptyBuffer c10State).1.epochs.length =
      c10State.epochs.length ∧
    (addDetectionFactor unitPoseOps cexParams emptyBuffer c10State).2 = [] :=
  detectionFree_amendedC3 unitPoseOps cexParams emptyBuffer c10State rfl (by decide)

/-- **C10, counterexample.**  `propagateObjectPoses` grows
`previousVelocityNodeIndices` by a plain `push_back` (line 1778) with no
eviction: a track with one recorded id and `K =
numberOfVelocityConsistencySteps = 1` holds two entries after one more
propagation, exceeding the claimed capacity `K`. -/
theorem velocityHistory_claimC10_counterexample :
    (((propagateObjectPoses unitPoseOps cexParams 1 c10State).epochs.getLastD []).map
      (fun t => t.previousVelocityNodeIndices)) = [[5, 7]] ∧
    ¬ ([5, 7].length ≤ cexParams.numberOfVelocityConsistencySteps) := by
  with_unfolding_all decide

/-- **C10, amended.**  The stored history of previous velocity node ids is
unbounded: every propagation of a non-lost track appends one entry and
nothing is ever evicted.  Only the last `K` entries are consulted — the
velocity-consistency test depends only on the last `K` recorded ids (and
on whether at least `K` exist). -/
theorem velocityHistory_amendedC10 {Pose : Type} (ops : PoseOps Pose) (p : TrackerParams)
    (dt : ℚ) (t : ObjectState Pose) (ts : List (ObjectState Pose)) (n : ℕ)
    (hkeep : ¬ p.trackingStepsForLostObject < t.lostCount) (h0 : t.lostCount = 0) :
    (∃ t1 rest, (propagateTracks ops p dt (t :: ts) n).1 = t1 :: rest ∧
      t1.previousVelocityNodeIndices =
        t.previousVelocityNodeIndices ++ [t.velocityNodeIndex] ∧
      t1.previousVelocityNodeIndices.length =
        t.previousVelocityNodeIndices.length + 1) ∧
    (∀ (K : ℕ) (est : ℕ → Vec6) (h1 h2 : List ℕ) (aThr vThr : ℚ),
      h1.reverse.take K = h2.reverse.take K → (h1.length < K ↔ h2.length < K) →
      velocityIsConsistent K est h1 aThr vThr = velocityIsConsistent K est h2 aThr vThr) := by
  constructor
  · simp only [propagateTracks]
    rw [if_neg hkeep, if_pos h0]
    refine ⟨_, _, rfl, rfl, by simp⟩
  · intro K est h1 h2 aThr vThr htake hlen
    unfold velocityIsConsistent velocityConsistencyError velocitySamples
    by_cases hl : h1.length < K
    · rw [if_pos hl, if_pos (hlen.mp hl)]
    · rw [if_neg hl, if_neg (fun hc => hl (hlen.mpr hc)), htake]

/-- Witness for the amended C10 at the concrete one-entry history. -/
theorem velocityHistory_amendedC10_witness :
    (∃ t1 rest, (propagateTracks unitPoseOps cexParams 1 [c10Track] 8).1 = t1 :: rest ∧
      t1.previousVelocityNodeIndices =
        c10Track.previousVelocityNodeIndices ++ [c10Track.velocityNodeIndex] ∧
      t1.previousVelocityNodeIndices.length =
        c10Track.previousVelocityNodeIndices.length + 1) ∧
    (∀ (K : ℕ) (est : ℕ → Vec6) (h1 h2 : List ℕ) (aThr vThr : ℚ),
      h1.reverse.take K = h2.reverse.take K → (h1.length < K ↔ h2.length < K) →
      velocityIsConsistent K est h1 aThr vThr = velocityIsConsistent K est h2 aThr vThr) :=
  velocityHistory_amendedC10 unitPoseOps cexParams 1 c10Track [] 8 (by decide) (by decide)

/-- With fewer than 50 selected correspondences, `LMOptimization` returns
immediately: no state change, keep optimizing. -/
theorem LMOptimization_small (it : LMIterInput) (k : ℕ) (s : ScanState)
    (h : it.selNum < 50) : LMOptimization it k s = (s, false) := by
  unfold LMOptimization
  rw [if_pos h]

/-- The LM loop leaves the state untouched when every iteration selects
fewer than 50 correspondences. -/
theorem lmLoop_small (l : List LMIterInput) (k : ℕ) (s : ScanState)
    (h : ∀ it ∈ l, it.selNum < 50) : lmLoop l k s = s := by
  induction l generalizing k with
  | nil => rfl
  | cons a rest ih =>
    have ha : a.selNum < 50 := h a (List.mem_cons_self a rest)
    simp only [lmLoop, LMOptimization_small a k s ha]
    exact ih (k + 1) (fun it hit => h it (List.mem_cons_of_mem a hit))

/-- Clamping is the identity inside the limits. -/
theorem constraintTransformation_id (v limit : ℚ) (h : |v| ≤ limit) :
    constraintTransformation v limit = v := by
  rw [abs_le] at h
  have h1 : ¬ v < -limit := by linarith [h.1]
  have h2 : ¬ limit < v := by linarith [h.2]
  unfold constraintTransformation
  rw [if_neg h1, if_neg h2]

/-- Without IMU and inside the tolerances, `transformUpdate` is the
identity. -/
theorem transformUpdate_id (slerp : ℚ → ℚ → ℚ → ℚ) (p : ScanParams)
    (imuRollInit imuPitchInit : ℚ) (t : Vec6)
    (hroll : |t 0| ≤ p.rotation_tollerance) (hpitch : |t 1| ≤ p.rotation_tollerance)
    (hz : |t 5| ≤ p.z_tollerance) :
    transformUpdate slerp p false imuRollInit imuPitchInit t = t := by
  unfold transformUpdate
  rw [if_neg (by simp)]
  funext d
  by_cases h0 : d = 0
  · rw [if_pos h0, h0]
    exact constraintTransformation_id _ _ hroll
  · rw [if_neg h0]
    by_cases h1 : d = 1
    · rw [if_pos h1, h1]
      exact constraintTransformation_id _ _ hpitch
    · rw [if_neg h1]
      by_cases h5 : d = 5
      · rw [if_pos h5, h5]
        exact constraintTransformation_id _ _ hz
      · rw [if_neg h5]

/-- **C7, counterexample.**  A step with enough input features whose every
iteration selects only 49 correspondences: `LMOptimization` returns with
the pose untouched, and `scan2MapOptimization` emits **no** warning (the
`Not enough features!` warning is tied to the input-feature check, not
to the correspondence count), contradicting "emits a warning". -/
theorem scan2Map_claimC7_counterexample :
    (scan2MapOptimization idSlerp cexScanParams smallCorrScanInput zeroScanState).2 = [] ∧
    (∀ d : Fin 6, (scan2MapOptimization idSlerp cexScanParams smallCorrScanInput
      zeroScanState).1.transform d = 0) ∧
    LMOptimization smallCorrIter 0 zeroScanState = (zeroScanState, false) := by
  refine ⟨?_, ?_, rfl⟩
  · with_unfolding_all decide
  · set_option maxRecDepth 10000 in with_unfolding_all decide

/-- **C7, amended.**  If fewer than 50 correspondences are selected in an
iteration, `LMOptimization` skips the pose update for that iteration and
keeps the pre-optimization pose; when this happens in every iteration the
scan-to-map optimization finishes with the pose unchanged (the IMU
blending and clamping of `transformUpdate` are the identity without IMU
and inside the tolerances) — and no warning is emitted: the only warning
of `scan2MapOptimization` belongs to the input-feature check. -/
theorem scan2Map_lowCorrespondences_amendedC7 (slerp : ℚ → ℚ → ℚ → ℚ) (p : ScanParams)
    (inp : ScanInput) (s : ScanState)
    (hkey : inp.keyPosesEmpty = false)
    (hfeat : p.edgeFeatureMinValidNum < inp.laserCloudCornerLastDSNum ∧
      p.surfFeatureMinValidNum < inp.laserCloudSurfLastDSNum)
    (hsmall : ∀ it ∈ inp.iters, it.selNum < 50)
    (hroll : |s.transform 0| ≤ p.rotation_tollerance)
    (hpitch : |s.transform 1| ≤ p.rotation_tollerance)
    (hz : |s.transform 5| ≤ p.z_tollerance)
    (himu : inp.imuAvailable = false) :
    (∀ (it : LMIterInput) (k : ℕ) (s0 : ScanState), it.selNum < 50 →
      LMOptimization it k s0 = (s0, false)) ∧
    (scan2MapOptimization slerp p inp s).1.transform = s.transform ∧
    (scan2MapOptimization slerp p inp s).2 = [] := by
  have hloop : lmLoop (inp.iters.take 30) 0 s = s :=
    lmLoop_small _ 0 s (fun it hit => hsmall it (List.take_subset 30 inp.iters hit))
  have hscan : scan2MapOptimization slerp p inp s =
      ({ s with
         transform := transformUpdate slerp p inp.imuAvailable inp.imuRollInit
           inp.imuPitchInit s.transform }, []) := by
    unfold scan2MapOptimization
    rw [hkey, if_neg Bool.false_ne_true, if_pos hfeat, hloop]
  refine ⟨fun it k s0 h => LMOptimization_small it k s0 h, ?_, ?_⟩
  · rw [hscan, himu]
    exact transformUpdate_id slerp p _ _ s.transform hroll hpitch hz
  · rw [hscan]

/-- Witness for the amended C7: the 49-correspondence scenario. -/
theorem scan2Map_lowCorrespondences_amendedC7_witness :
    (∀ (it : LMIterInput) (k : ℕ) (s0 : ScanState), it.selNum < 50 →
      LMOptimization it k s0 = (s0, false)) ∧
    (scan2MapOptimization idSlerp cexScanParams smallCorrScanInput
      zeroScanState).1.transform = zeroScanState.transform ∧
    (scan2MapOptimization idSlerp cexScanParams smallCorrScanInput zeroScanState).2 = [] :=
  scan2Map_lowCorrespondences_amendedC7 idSlerp cexScanParams smallCorrScanInput zeroScanState
    rfl (by decide) (by decide) (by with_unfolding_all decide)
    (by with_unfolding_all decide) (by with_unfolding_all decide) rfl

/-- Iterations after the first never touch the degeneracy flag. -/
theorem LMOptimization_isDegenerate_succ (inp : LMIterInput) (k : ℕ) (s : ScanState)
    (hk : ¬ k = 0) : (LMOptimization inp k s).1.isDegenerate = s.isDegenerate := by
  unfold LMOptimization
  by_cases h : inp.selNum < 50
  · rw [if_pos h]
  · rw [if_neg h]
    simp only [if_neg hk]

/-- The LM loop started past iteration 0 never touches the degeneracy
flag. -/
theorem lmLoop_isDegenerate_succ (l : List LMIterInput) (k : ℕ) (s : ScanState)
    (hk : ¬ k = 0) : (lmLoop l k s).isDegenerate = s.isDegenerate := by
  induction l generalizing k s with
  | nil => rfl
  | cons a rest ih =>
    simp only [lmLoop]
    by_cases hr : (LMOptimization a k s).2 = true
    · rw [if_pos hr]
      exact LMOptimization_isDegenerate_succ a k s hk
    · rw [if_neg hr, ih (k + 1) _ (by omega)]
      exact LMOptimization_isDegenerate_succ a k s hk

/-- At iteration 0 with at least 50 correspondences, the flag is exactly
the eigenvalue test's verdict. -/
theorem LMOptimization_isDegenerate_zero (inp : LMIterInput) (s : ScanState)
    (h : ¬ inp.selNum < 50) :
    (LMOptimization inp 0 s).1.isDegenerate =
      decide (0 < degenerateRowCount inp.eigenvalues) := by
  unfold LMOptimization
  rw [if_neg h]
  rfl

/-- The degeneracy flag after the whole LM loop: recomputed at iteration 0
if that iteration has at least 50 correspondences, otherwise carried over
from the previous step. -/
theorem lmLoop_isDegenerate_start (l : List LMIterInput) (s : ScanState) :
    (lmLoop l 0 s).isDegenerate =
      (match l with
       | [] => s.isDegenerate
       | i0 :: _ => if i0.selNum < 50 then s.isDegenerate
           else decide (0 < degenerateRowCount i0.eigenvalues)) := by
  cases l with
  | nil => rfl
  | cons i0 rest =>
    by_cases h : i0.selNum < 50
    · simp only [lmLoop, LMOptimization_small i0 0 s h]
      rw [if_pos h]
      simp only [Bool.false_eq_true, if_false]
      exact lmLoop_isDegenerate_succ rest 1 s (by omega)
    · simp only [lmLoop]
      rw [if_neg h]
      by_cases hr : (LMOptimization i0 0 s).2 = true
      · rw [if_pos hr]
        exact LMOptimization_isDegenerate_zero i0 s h
      · rw [if_neg hr, lmLoop_isDegenerate_succ rest 1 _ (by omega)]
        exact LMOptimization_isDegenerate_zero i0 s h

/-- The scan-matcher's degeneracy flag after one step, as a function of
whether the iteration-0 degeneracy check was reached. -/
theorem scan2Map_isDegenerate (slerp : ℚ → ℚ → ℚ → ℚ) (p : ScanParams) (inp : ScanInput)
    (s : ScanState) :
    (scan2MapOptimization slerp p inp s).1.isDegenerate =
      (match degeneracyCheckedThisStep p inp with
       | none => s.isDegenerate
       | some b => b) := by
  unfold scan2MapOptimization degeneracyCheckedThisStep
  by_cases hkey : inp.keyPosesEmpty = true
  · rw [if_pos hkey, if_pos hkey]
  · rw [if_neg hkey, if_neg hkey]
    by_cases hfeat : p.edgeFeatureMinValidNum < inp.laserCloudCornerLastDSNum ∧
        p.surfFeatureMinValidNum < inp.laserCloudSurfLastDSNum
    · rw [if_pos hfeat, if_pos hfeat]
      show (lmLoop (inp.iters.take 30) 0 s).isDegenerate = _
      rw [lmLoop_isDegenerate_start]
      cases htake : inp.iters.take 30 with
      | nil => rfl
      | cons i0 rest =>
        dsimp only
        by_cases hs : i0.selNum < 50
        · rw [if_pos hs, if_pos hs]
        · rw [if_neg hs, if_neg hs]
    · rw [if_neg hfeat, if_neg hfeat]

/-- **C8, counterexample.**  Three steps: (1) before the first keyframe,
(2) a degenerate scan match, (3) a step skipped for lack of edge
features.  The member `isDegenerate` is only assigned at iteration 0 of
a step that reaches the eigenvalue check; step 3 never reaches it, so the
flag from step 2 persists and the published `covariance[0]` of step 3 is
1, while the claim ("flagged degeneracy **for that step**") prescribes
0. -/
theorem cov0_claimC8_counterexample :
    (runOdometry idSlerp cexScanParams [c8Step1, c8Step2, c8Step3] initialOdomState).2 =
      [0, 1, 1] ∧
    degeneracyCheckedThisStep cexScanParams c8Step2 = some true ∧
    degeneracyCheckedThisStep cexScanParams c8Step3 = none ∧
    covClaimC8 cexScanParams c8Step3 = 0 := by
  set_option maxRecDepth 100000 in with_unfolding_all decide

/-- **C8, amended.**  The published incremental-odometry `covariance[0]`
equals 1 exactly when the driver's persistent `isDegenerate` flag is set
after the step's scan matching — the flag is recomputed only by a step
that reaches the iteration-0 eigenvalue check (some `AᵀA` eigenvalue
below 100 flags degeneracy, and the fixed projection is reused for the
later iterations of that step) and otherwise keeps its previous value —
except the very first published incremental message, which copies the
global odometry message and carries `covariance[0] = 0`. -/
theorem cov0_amendedC8 (slerp : ℚ → ℚ → ℚ → ℚ) (p : ScanParams) (inp : ScanInput)
    (s : OdomDriverState) :
    ((mappingOdometryStep slerp p inp s).2 = publishOdometryCov0 s.lastIncreOdomPubFlag
      (mappingOdometryStep slerp p inp s).1.scan.isDegenerate) ∧
    (s.lastIncreOdomPubFlag = false → (mappingOdometryStep slerp p inp s).2 = 0) ∧
    (s.lastIncreOdomPubFlag = true → (mappingOdometryStep slerp p inp s).2 =
      (if (mappingOdometryStep slerp p inp s).1.scan.isDegenerate then 1 else 0)) ∧
    (degeneracyCheckedThisStep p inp = none →
      (mappingOdometryStep slerp p inp s).1.scan.isDegenerate = s.scan.isDegenerate) ∧
    (∀ b : Bool, degeneracyCheckedThisStep p inp = some b →
      (mappingOdometryStep slerp p inp s).1.scan.isDegenerate = b) := by
  have hdeg : (mappingOdometryStep slerp p inp s).1.scan.isDegenerate =
      (match degeneracyCheckedThisStep p inp with
       | none => s.scan.isDegenerate
       | some b => b) := scan2Map_isDegenerate slerp p inp s.scan
  refine ⟨rfl, ?_, ?_, ?_, ?_⟩
  · intro hflag
    show publishOdometryCov0 s.lastIncreOdomPubFlag _ = 0
    unfold publishOdometryCov0
    rw [if_pos hflag]
  · intro hflag
    show publishOdometryCov0 s.lastIncreOdomPubFlag _ = _
    unfold publishOdometryCov0
    rw [if_neg (by rw [hflag]; exact fun h => Bool.noConfusion h)]
    rfl
  · intro hnone
    rw [hdeg, hnone]
  · intro b hsome
    rw [hdeg, hsome]

/-- Witness for the amended C8: the feature-poor step keeps the stale
flag, and the published covariance follows it. -/
theorem cov0_amendedC8_witness :
    (mappingOdometryStep idSlerp cexScanParams c8Step3 c8StaleState).1.scan.isDegenerate =
      c8StaleState.scan.isDegenerate ∧
    (mappingOdometryStep idSlerp cexScanParams c8Step3 c8StaleState).2 =
      (if (mappingOdometryStep idSlerp cexScanParams c8Step3
        c8StaleState).1.scan.isDegenerate then 1 else 0) :=
  ⟨(cov0_amendedC8 idSlerp cexScanParams c8Step3 c8StaleState).2.2.2.1
      (by with_unfolding_all decide),
   (cov0_amendedC8 idSlerp cexScanParams c8Step3 c8StaleState).2.2.1 rfl⟩

/-- A passed velocity-consistency test means at least `K` recorded samples
and a mean Mahalanobis distance below 1. -/
theorem velocityIsConsistent_true {K : ℕ} {est : ℕ → Vec6} {history : List ℕ}
    {aThr vThr : ℚ} (h : velocityIsConsistent K est history aThr vThr = true) :
    K ≤ history.length ∧ velocityConsistencyError K est history aThr vThr < 1 := by
  unfold velocityIsConsistent at h
  by_cases hl : history.length < K
  · rw [if_pos hl] at h
    exact absurd h (by simp)
  · rw [if_neg hl] at h
    have herr := of_decide_eq_true h
    exact ⟨by omega, by linarith⟩

/-- **C1.**  A track is promoted to tightly coupled — with a
`TightlyCoupledDetectionFactor` emitted into the main graph — only if its
`trackScore` has reached `P+1`, the detection error under the
tightly-coupled-matching profile at the predicted pose is at most
`tightCouplingDetectionErrorThreshold`, and the velocity-consistency test
passed, which requires at least `K = numberOfVelocityConsistencySteps`
recorded velocity samples and a mean Mahalanobis distance below 1.  And
when a matched track has reached `P+1` but either test fails, it stays
loosely coupled (a `LooselyCoupledDetectionFactor` into the loose
sub-graph) and its `trackScore` is reduced by
`numberOfInterLooseCouplingSteps`. -/
theorem detectionGate_C1 {Pose : Type} (p : TrackerParams) (est : ℕ → Vec6)
    (errs : MatchProfile → List ℚ) (t : ObjectState Pose)
    (hinv : t.trackScore ≤ p.numberOfPreLooseCouplingSteps + 1) :
    ((∃ j, Emission.tightDetection t.objectIndex j ∈
        (detectionTrackStep p est errs t).emissions) →
      (detectionTrackStep p est errs t).track.isTightlyCoupled = true ∧
      (detectionTrackStep p est errs t).track.trackScore =
        p.numberOfPreLooseCouplingSteps + 1 ∧
      (getDetectionIndexAndError (errs .tightMatching)).2 ≤
        p.tightCouplingDetectionErrorThreshold ∧
      p.numberOfVelocityConsistencySteps ≤ t.previousVelocityNodeIndices.length ∧
      velocityConsistencyError p.numberOfVelocityConsistencySteps est
        t.previousVelocityNodeIndices p.objectAngularVelocityConsistencyVarianceThreshold
        p.objectLinearVelocityConsistencyVarianceThreshold < 1) ∧
    (∀ (_ : (getDetectionIndexAndError (errs (matchingProfile
          p.numberOfPreLooseCouplingSteps p.numberOfEarlySteps t.trackScore
          t.pathLength))).2 < p.detectionMatchThreshold)
       (_ : ¬ 0 < t.lostCount)
       (_ : p.numberOfPreLooseCouplingSteps + 1 ≤
         (if t.trackScore ≤ p.numberOfPreLooseCouplingSteps then t.trackScore + 1
          else t.trackScore))
       (_ : ¬ ((getDetectionIndexAndError (errs .tightMatching)).2 ≤
            p.tightCouplingDetectionErrorThreshold ∧
          velocityIsConsistent p.numberOfVelocityConsistencySteps est
            t.previousVelocityNodeIndices
            p.objectAngularVelocityConsistencyVarianceThreshold
            p.objectLinearVelocityConsistencyVarianceThreshold = true)),
      (detectionTrackStep p est errs t).track.isTightlyCoupled = false ∧
      (detectionTrackStep p est errs t).track.trackScore =
        (if t.trackScore ≤ p.numberOfPreLooseCouplingSteps then t.trackScore + 1
         else t.trackScore) - p.numberOfInterLooseCouplingSteps ∧
      (detectionTrackStep p est errs t).emissions =
        [Emission.looseDetection t.objectIndex
          (getDetectionIndexAndError (errs .tightMatching)).1]) := by
  constructor
  · rintro ⟨j, hj⟩
    by_cases h1 : (getDetectionIndexAndError (errs (matchingProfile
        p.numberOfPreLooseCouplingSteps p.numberOfEarlySteps t.trackScore
        t.pathLength))).2 < p.detectionMatchThreshold
    · by_cases h2 : 0 < t.lostCount
      · exfalso
        revert hj
        simp only [detectionTrackStep]
        rw [if_pos h1, if_pos h2]
        simp
      · by_cases h3 : p.numberOfPreLooseCouplingSteps + 1 ≤
            (if t.trackScore ≤ p.numberOfPreLooseCouplingSteps then t.trackScore + 1
             else t.trackScore)
        · by_cases h4 : ((getDetectionIndexAndError (errs .tightMatching)).2 ≤
              p.tightCouplingDetectionErrorThreshold ∧
            velocityIsConsistent p.numberOfVelocityConsistencySteps est
              t.previousVelocityNodeIndices
              p.objectAngularVelocityConsistencyVarianceThreshold
              p.objectLinearVelocityConsistencyVarianceThreshold = true)
          · have hsc : (if t.trackScore ≤ p.numberOfPreLooseCouplingSteps then
                t.trackScore + 1 else t.trackScore) =
                p.numberOfPreLooseCouplingSteps + 1 := by
              by_cases h5 : t.trackScore ≤ p.numberOfPreLooseCouplingSteps
              · rw [if_pos h5] at h3 ⊢
                omega
              · rw [if_neg h5] at h3 ⊢
                omega
            refine ⟨?_, ?_, h4.1, (velocityIsConsistent_true h4.2).1,
              (velocityIsConsistent_true h4.2).2⟩
            · simp only [detectionTrackStep]
              rw [if_pos h1, if_neg h2, if_pos h3, if_pos h4]
            · simp only [detectionTrackStep]
              rw [if_pos h1, if_neg h2, if_pos h3, if_pos h4]
              exact hsc
          · exfalso
            revert hj
            simp only [detectionTrackStep]
            rw [if_pos h1, if_neg h2, if_pos h3, if_neg h4]
            simp
        · exfalso
          revert hj
          simp only [detectionTrackStep]
          rw [if_pos h1, if_neg h2, if_neg h3]
          simp
    · exfalso
      revert hj
      simp only [detectionTrackStep]
      rw [if_neg h1]
      by_cases h2 : (getDetectionIndexAndError (errs .dataAssociation)).2 <
          p.detectionMatchThreshold
      · rw [if_pos h2]
        simp
      · rw [if_neg h2]
        simp
  · intro h1 h2 h3 h4
    refine ⟨?_, ?_, ?_⟩ <;>
    · simp only [detectionTrackStep]
      rw [if_pos h1, if_neg h2, if_pos h3, if_neg h4]

/-- Witness for C1: with `K = 1`, one recorded velocity sample, zero
residuals everywhere and `trackScore` already at `P+1`, the promotion
branch fires; the demotion branch fires when the tight residual is 10. -/
theorem detectionGate_C1_witness :
    ((detectionTrackStep cexParams (fun _ => Vec6.zero) (tightErrs 0) tightTrack).track.isTightlyCoupled = true ∧
      (detectionTrackStep cexParams (fun _ => Vec6.zero) (tightErrs 0) tightTrack).track.trackScore =
        cexParams.numberOfPreLooseCouplingSteps + 1 ∧
      (getDetectionIndexAndError (tightErrs 0 .tightMatching)).2 ≤
        cexParams.tightCouplingDetectionErrorThreshold ∧
      cexParams.numberOfVelocityConsistencySteps ≤
        tightTrack.previousVelocityNodeIndices.length ∧
      velocityConsistencyError cexParams.numberOfVelocityConsistencySteps
        (fun _ => Vec6.zero) tightTrack.previousVelocityNodeIndices
        cexParams.objectAngularVelocityConsistencyVarianceThreshold
        cexParams.objectLinearVelocityConsistencyVarianceThreshold < 1) ∧
    ((detectionTrackStep cexParams (fun _ => Vec6.zero) (cexErrs 0) tightTrack).track.isTightlyCoupled = false ∧
      (detectionTrackStep cexParams (fun _ => Vec6.zero) (cexErrs 0) tightTrack).track.trackScore =
        (if tightTrack.trackScore ≤ cexParams.numberOfPreLooseCouplingSteps then
          tightTrack.trackScore + 1 else tightTrack.trackScore) -
          cexParams.numberOfInterLooseCouplingSteps ∧
      (detectionTrackStep cexParams (fun _ => Vec6.zero) (cexErrs 0) tightTrack).emissions =
        [Emission.looseDetection tightTrack.objectIndex
          (getDetectionIndexAndError (cexErrs 0 .tightMatching)).1]) :=
  ⟨(detectionGate_C1 cexParams (fun _ => Vec6.zero) (tightErrs 0) tightTrack
      (by with_unfolding_all decide)).1
      ⟨0, by with_unfolding_all decide⟩,
   (detectionGate_C1 cexParams (fun _ => Vec6.zero) (cexErrs 0) tightTrack
      (by with_unfolding_all decide)).2
      (by with_unfolding_all decide) (by with_unfolding_all decide)
      (by with_unfolding_all decide) (by with_unfolding_all decide)⟩

/-- The last element of a nonempty list belongs to it. -/
theorem getLastD_mem {α : Type} (l : List α) (d : α) (h : ¬ l = []) : l.getLastD d ∈ l := by
  induction l generalizing d with
  | nil => exact absurd rfl h
  | cons a as ih =>
    rw [List.getLastD_cons]
    cases as with
    | nil => simp [List.getLastD]
    | cons b bs => exact List.mem_cons_of_mem a (ih a (by simp))

/-- Every propagated track stems from a kept (not-retired) track of the
input epoch, with the same `trackScore` and `objectIndex`. -/
theorem propagateTracks_mem {Pose : Type} (ops : PoseOps Pose) (p : TrackerParams)
    (dt : ℚ) (l : List (ObjectState Pose)) (n : ℕ) :
    ∀ t1 ∈ (propagateTracks ops p dt l n).1, ∃ t ∈ l,
      ¬ p.trackingStepsForLostObject < t.lostCount ∧
      t1.trackScore = t.trackScore ∧ t1.objectIndex = t.objectIndex := by
  induction l generalizing n with
  | nil =>
    intro t1 h
    exact absurd h (by simp [propagateTracks])
  | cons t ts ih =>
    intro t1 h1
    simp only [propagateTracks] at h1
    by_cases hdrop : p.trackingStepsForLostObject < t.lostCount
    · rw [if_pos hdrop] at h1
      obtain ⟨t0, ht0, h⟩ := ih n t1 h1
      exact ⟨t0, List.mem_cons_of_mem t ht0, h⟩
    · rw [if_neg hdrop] at h1
      by_cases h0 : t.lostCount = 0
      · rw [if_pos h0] at h1
        rcases List.mem_cons.mp h1 with h | h
        · exact ⟨t, List.mem_cons_self t ts, hdrop, by rw [h], by rw [h]⟩
        · obtain ⟨t0, ht0, hh⟩ := ih (n + 2) t1 h
          exact ⟨t0, List.mem_cons_of_mem t ht0, hh⟩
      · rw [if_neg h0] at h1
        rcases List.mem_cons.mp h1 with h | h
        · exact ⟨t, List.mem_cons_self t ts, hdrop, by rw [h], by rw [h]⟩
        · obtain ⟨t0, ht0, hh⟩ := ih n t1 h
          exact ⟨t0, List.mem_cons_of_mem t ht0, hh⟩

/-- The per-track detection transition keeps the `objectIndex`, and every
factor it emits carries that `objectIndex`. -/
theorem detectionTrackStep_objectIndex {Pose : Type} (p : TrackerParams) (est : ℕ → Vec6)
    (errs : MatchProfile → List ℚ) (t : ObjectState Pose) :
    (detectionTrackStep p est errs t).track.objectIndex = t.objectIndex ∧
    (∀ em ∈ (detectionTrackStep p est errs t).emissions, em.objectIdx = t.objectIndex) := by
  simp only [detectionTrackStep]
  split_ifs <;> simp [Emission.objectIdx]

/-- The per-track detection transition keeps `0 ≤ trackScore ≤ P + 1`,
provided `0 ≤ numberOfInterLooseCouplingSteps ≤ P + 1`. -/
theorem detectionTrackStep_score {Pose : Type} (p : TrackerParams) (est : ℕ → Vec6)
    (errs : MatchProfile → List ℚ) (t : ObjectState Pose)
    (h0 : 0 ≤ p.numberOfInterLooseCouplingSteps)
    (h1 : p.numberOfInterLooseCouplingSteps ≤ p.numberOfPreLooseCouplingSteps + 1)
    (ht0 : 0 ≤ t.trackScore) (ht1 : t.trackScore ≤ p.numberOfPreLooseCouplingSteps + 1) :
    0 ≤ (detectionTrackStep p est errs t).track.trackScore ∧
    (detectionTrackStep p est errs t).track.trackScore ≤
      p.numberOfPreLooseCouplingSteps + 1 := by
  simp only [detectionTrackStep]
  split_ifs <;> simp <;> omega

/-- Every track born by the birth loop has `trackScore = 0`. -/
theorem birthLoop_score {Pose : Type} (ops : PoseOps Pose) (egoPose : Pose)
    (detPoses : List Pose) (matched : ℕ → Bool) (transfers : List (ℕ × ℕ)) :
    ∀ (idxs : List ℕ) (n c tc : ℕ),
      ∀ t1 ∈ (birthLoop ops egoPose detPoses matched transfers idxs n c tc).tracks,
        t1.trackScore = 0 := by
  intro idxs
  induction idxs with
  | nil => intro n c tc t1 h; exact absurd h (by simp [birthLoop])
  | cons idx rest ih =>
    intro n c tc t1 h1
    simp only [birthLoop] at h1
    by_cases hm : matched idx
    · rw [if_pos hm] at h1
      exact ih n c tc t1 h1
    · rw [if_neg hm] at h1
      rcases List.mem_cons.mp h1 with h | h
      · rw [h]
      · exact ih (n + 2) (c + 1) _ t1 h

/-- `propagateObjectPoses` preserves the `trackScore` invariant. -/
theorem propagateObjectPoses_scoreInvariant {Pose : Type} (ops : PoseOps Pose)
    (p : TrackerParams) (dt : ℚ) (s : TrackerState Pose)
    (hinv : trackScoreInvariant p s) :
    trackScoreInvariant p (propagateObjectPoses ops p dt s) := by
  intro e he t ht
  unfold propagateObjectPoses at he
  by_cases h0 : s.epochs.length = 0
  · rw [if_pos h0] at he
    rw [List.mem_singleton.mp he] at ht
    exact absurd ht (List.not_mem_nil t)
  · rw [if_neg h0] at he
    rcases List.mem_append.mp he with h | h
    · exact hinv e h t ht
    · rw [List.mem_singleton.mp h] at ht
      obtain ⟨t0, ht0, _, hsc, _⟩ := propagateTracks_mem ops p dt _ _ t ht
      have hb := hinv _ (getLastD_mem _ _ (fun hc => h0 (by rw [hc]; rfl))) t0 ht0
      omega

/-- `addDetectionFactor` preserves the `trackScore` invariant, provided
`0 ≤ numberOfInterLooseCouplingSteps ≤ P + 1`. -/
theorem addDetectionFactor_scoreInvariant {Pose : Type} (ops : PoseOps Pose)
    (p : TrackerParams) (inp : DetectionInput Pose) (s : TrackerState Pose)
    (h0 : 0 ≤ p.numberOfInterLooseCouplingSteps)
    (h1 : p.numberOfInterLooseCouplingSteps ≤ p.numberOfPreLooseCouplingSteps + 1)
    (hinv : trackScoreInvariant p s) :
    trackScoreInvariant p (addDetectionFactor ops p inp s).1 := by
  have hlast : ∀ t ∈ s.epochs.getLastD [], 0 ≤ t.trackScore ∧
      t.trackScore ≤ p.numberOfPreLooseCouplingSteps + 1 := by
    intro t ht
    by_cases hc : s.epochs = []
    · rw [hc] at ht
      exact absurd ht (by simp)
    · exact hinv _ (getLastD_mem _ _ hc) t ht
  intro e he t ht
  unfold addDetectionFactor at he
  by_cases hc1 : inp.numDetections = 0 ∧ s.epochs.length = 0
  · rw [if_pos hc1] at he
    exact hinv e he t ht
  · rw [if_neg hc1] at he
    by_cases hc2 : inp.numDetections = 0
    · rw [if_pos hc2] at he
      simp only [setLastEpoch] at he
      rcases List.mem_append.mp he with h | h
      · exact hinv e (List.dropLast_subset _ h) t ht
      · rw [List.mem_singleton.mp h] at ht
        obtain ⟨t0, ht0, hteq⟩ := List.mem_map.mp ht
        have hb := hlast t0 ht0
        rw [← hteq]
        simpa using hb
    · rw [if_neg hc2] at he
      rcases List.mem_append.mp he with h | h
      · exact hinv e (List.dropLast_subset _ h) t ht
      · rw [List.mem_singleton.mp h] at ht
        rcases List.mem_append.mp ht with h | h
        · obtain ⟨r0, hr0, hteq⟩ := List.mem_map.mp h
          obtain ⟨t0, ht0, ht0eq⟩ := List.mem_map.mp hr0
          have hb := hlast t0 ht0
          rw [← hteq, ← ht0eq]
          exact detectionTrackStep_score p inp.est (inp.errs t0.objectIndex) t0 h0 h1
            hb.1 hb.2
        · have hz := birthLoop_score ops inp.egoPose inp.detPoses _ _ _ _ _ _ t h
          omega

/-- One full tracking step preserves the `trackScore` invariant. -/
theorem trackingStep_scoreInvariant {Pose : Type} (ops : PoseOps Pose) (p : TrackerParams)
    (inp : StepInput Pose) (s : TrackerState Pose)
    (h0 : 0 ≤ p.numberOfInterLooseCouplingSteps)
    (h1 : p.numberOfInterLooseCouplingSteps ≤ p.numberOfPreLooseCouplingSteps + 1)
    (hinv : trackScoreInvariant p s) :
    trackScoreInvariant p (trackingStep ops p inp s).1 :=
  addDetectionFactor_scoreInvariant ops p inp.detection _ h0 h1
    (propagateObjectPoses_scoreInvariant ops p inp.deltaTime s hinv)

/-- **C2, amended.**  For every step and every track of every epoch,
`0 ≤ trackScore ≤ P+1` — provided
`0 ≤ numberOfInterLooseCouplingSteps ≤ P+1`: the increment on a match is
capped at `P+1`, a lost step resets the score to 0, births start at 0,
and the demotion (always from exactly `P+1`) lands at
`P+1 − numberOfInterLooseCouplingSteps ≥ 0`.  Without the proviso the
lower bound fails (see the counterexample). -/
theorem trackScore_bounds_amendedC2 {Pose : Type} [Inhabited Pose] (ops : PoseOps Pose)
    (p : TrackerParams) (L : List (StepInput Pose))
    (h0 : 0 ≤ p.numberOfInterLooseCouplingSteps)
    (h1 : p.numberOfInterLooseCouplingSteps ≤ p.numberOfPreLooseCouplingSteps + 1) :
    trackScoreInvariant p (runTracking ops p L (initialTrackerState Pose)).1 := by
  have hgen : ∀ (M : List (StepInput Pose)) (s : TrackerState Pose),
      trackScoreInvariant p s → trackScoreInvariant p (runTracking ops p M s).1 := by
    intro M
    induction M with
    | nil => intro s hs; exact hs
    | cons inp rest ih =>
      intro s hs
      exact ih _ (trackingStep_scoreInvariant ops p inp s h0 h1 hs)
  exact hgen L _ (fun e he => absurd he (by simp [initialTrackerState]))

/-- Witness for the amended C2: two steps with
`numberOfInterLooseCouplingSteps = 1`. -/
theorem trackScore_bounds_amendedC2_witness :
    trackScoreInvariant okParams
      (runTracking unitPoseOps okParams [cexStep, cexStep] (initialTrackerState PUnit)).1 :=
  trackScore_bounds_amendedC2 unitPoseOps okParams [cexStep, cexStep]
    (by decide) (by decide)

/-- **C2, counterexample.**  With `P = 0` and
`numberOfInterLooseCouplingSteps = 2`, a track that is born, then matched
(score `0 → 1 = P+1`), and then fails the tight spatial gate is demoted
to `trackScore = 1 − 2 = −1 < 0`: the code has no lower clamp, so the
claimed invariant `0 ≤ trackScore` is violated after two steps. -/
theorem trackScore_claimC2_counterexample :
    (((runTracking unitPoseOps cexParams [cexStep, cexStep]
      (initialTrackerState PUnit)).1.epochs.getLastD []).map (fun t => t.trackScore)) =
      [-1] ∧
    ¬ trackScoreInvariant cexParams
      (runTracking unitPoseOps cexParams [cexStep, cexStep]
        (initialTrackerState PUnit)).1 := by
  constructor
  · with_unfolding_all decide
  · unfold trackScoreInvariant
    with_unfolding_all decide

/-- Birth bookkeeping: every born track and every birth emission carries an
object id at least the incoming counter, and the counter never
decreases. -/
theorem birthLoop_bounds {Pose : Type} (ops : PoseOps Pose) (egoPose : Pose)
    (detPoses : List Pose) (matched : ℕ → Bool) (transfers : List (ℕ × ℕ)) :
    ∀ (idxs : List ℕ) (n c tc : ℕ),
      (∀ t1 ∈ (birthLoop ops egoPose detPoses matched transfers idxs n c tc).tracks,
        c ≤ t1.objectIndex) ∧
      (∀ em ∈ (birthLoop ops egoPose detPoses matched transfers idxs n c tc).emissions,
        c ≤ em.objectIdx) ∧
      c ≤ (birthLoop ops egoPose detPoses matched transfers
        idxs n c tc).numberOfRegisteredObjects := by
  intro idxs
  induction idxs with
  | nil =>
    intro n c tc
    exact ⟨by simp [birthLoop], by simp [birthLoop], by simp [birthLoop]⟩
  | cons idx rest ih =>
    intro n c tc
    simp only [birthLoop]
    by_cases hm : matched idx
    · rw [if_pos hm]
      exact ih n c tc
    · rw [if_neg hm]
      obtain ⟨ihT, ihE, ihC⟩ := ih (n + 2) (c + 1)
        (if ((transfers.reverse.find? (fun pr => pr.1 = idx)).map (·.2)) = none then tc + 1
         else tc)
      refine ⟨?_, ?_, le_trans (Nat.le_succ c) ihC⟩
      · intro t1 h
        rcases List.mem_cons.mp h with h | h
        · rw [h]
        · exact le_trans (Nat.le_succ c) (ihT t1 h)
      · intro em h
        rcases List.mem_cons.mp h with h | h
        · rw [h]
          exact Nat.le_refl c
        · rcases List.mem_cons.mp h with h | h
          · rw [h]
            exact Nat.le_refl c
          · exact le_trans (Nat.le_succ c) (ihE em h)

/-- Every constant-velocity factor emitted refers to a track of the current
epoch. -/
theorem addConstantVelocityFactor_mem {Pose : Type} (p : TrackerParams)
    (s : TrackerState Pose) :
    ∀ em ∈ addConstantVelocityFactor p s, ∃ t ∈ s.epochs.getLastD [],
      em.objectIdx = t.objectIndex := by
  intro em hem
  unfold addConstantVelocityFactor at hem
  by_cases hlen : s.epochs.length < 2
  · rw [if_pos hlen] at hem
    exact absurd hem (List.not_mem_nil em)
  · rw [if_neg hlen] at hem
    obtain ⟨t, ht, hf⟩ := List.mem_filterMap.mp hem
    refine ⟨t, ht, ?_⟩
    by_cases h1 : t.isFirst
    · rw [if_pos h1] at hf
      exact absurd hf (by simp)
    · rw [if_neg h1] at hf
      by_cases h2 : 0 < t.lostCount
      · rw [if_pos h2] at hf
        exact absurd hf (by simp)
      · rw [if_neg h2] at hf
        rw [← Option.some.inj hf]
        rfl

/-- Every stable-pose factor emitted refers to a track of the current
epoch. -/
theorem addStablePoseFactor_mem {Pose : Type} (s : TrackerState Pose) :
    ∀ em ∈ addStablePoseFactor s, ∃ t ∈ s.epochs.getLastD [],
      em.objectIdx = t.objectIndex := by
  intro em hem
  unfold addStablePoseFactor at hem
  by_cases hlen : s.epochs.length < 2
  · rw [if_pos hlen] at hem
    exact absurd hem (List.not_mem_nil em)
  · rw [if_neg hlen] at hem
    obtain ⟨t, ht, hf⟩ := List.mem_filterMap.mp hem
    refine ⟨t, ht, ?_⟩
    by_cases h1 : t.isFirst
    · rw [if_pos h1] at hf
      exact absurd hf (by simp)
    · rw [if_neg h1] at hf
      by_cases h2 : 0 < t.lostCount
      · rw [if_pos h2] at hf
        exact absurd hf (by simp)
      · rw [if_neg h2] at hf
        rw [← Option.some.inj hf]
        rfl

/-- Propagation appends one epoch; under the retirement hypothesis the new
epoch contains no track with the retired id, and the object counter is
unchanged. -/
theorem propagateObjectPoses_retired {Pose : Type} (ops : PoseOps Pose) (p : TrackerParams)
    (dt : ℚ) (s : TrackerState Pose) (r : ℕ) (hinv : retiredInvariant p r s) :
    ∃ E, (propagateObjectPoses ops p dt s).epochs = s.epochs ++ [E] ∧
      (∀ t ∈ E, t.objectIndex ≠ r) ∧
      (propagateObjectPoses ops p dt s).numberOfRegisteredObjects =
        s.numberOfRegisteredObjects := by
  unfold propagateObjectPoses
  by_cases h0 : s.epochs.length = 0
  · rw [if_pos h0]
    refine ⟨[], ?_, fun t ht => absurd ht (List.not_mem_nil t), rfl⟩
    rw [List.length_eq_zero.mp h0]
    rfl
  · rw [if_neg h0]
    refine ⟨_, rfl, ?_, rfl⟩
    intro t1 h1 hc
    obtain ⟨t0, ht0, hkeep, _, hidx⟩ := propagateTracks_mem ops p dt _ _ t1 h1
    exact hkeep (hinv.2 t0 ht0 (by rw [← hidx, hc]))

/-- `addDetectionFactor` on a clean epoch: the new epoch and every emitted
factor avoid the retired id, and the counter stays above it. -/
theorem addDetectionFactor_retired {Pose : Type} (ops : PoseOps Pose) (p : TrackerParams)
    (inp : DetectionInput Pose) (s : TrackerState Pose) (r : ℕ)
    (hne : ¬ s.epochs.length = 0) (hcount : r < s.numberOfRegisteredObjects)
    (hclean : ∀ t ∈ s.epochs.getLastD [], t.objectIndex ≠ r) :
    ∃ e, (addDetectionFactor ops p inp s).1.epochs = s.epochs.dropLast ++ [e] ∧
      (∀ t ∈ e, t.objectIndex ≠ r) ∧
      (∀ em ∈ (addDetectionFactor ops p inp s).2, em.objectIdx ≠ r) ∧
      r < (addDetectionFactor ops p inp s).1.numberOfRegisteredObjects := by
  unfold addDetectionFactor
  by_cases hc1 : inp.numDetections = 0 ∧ s.epochs.length = 0
  · exact absurd hc1.2 hne
  rw [if_neg hc1]
  by_cases hc2 : inp.numDetections = 0
  · rw [if_pos hc2]
    refine ⟨_, rfl, ?_, by simp, hcount⟩
    intro t ht
    obtain ⟨t0, ht0, hteq⟩ := List.mem_map.mp ht
    rw [← hteq]
    exact hclean t0 ht0
  · rw [if_neg hc2]
    refine ⟨_, rfl, ?_, ?_, ?_⟩
    · intro t ht
      rcases List.mem_append.mp ht with h | h
      · obtain ⟨r0, hr0, hteq⟩ := List.mem_map.mp h
        obtain ⟨t0, ht0, hr0eq⟩ := List.mem_map.mp hr0
        rw [← hteq, ← hr0eq,
          (detectionTrackStep_objectIndex p inp.est (inp.errs t0.objectIndex) t0).1]
        exact hclean t0 ht0
      · have hb : s.numberOfRegisteredObjects ≤ t.objectIndex :=
          (birthLoop_bounds ops inp.egoPose inp.detPoses _ _
            (List.range inp.numDetections) s.numberOfNodes s.numberOfRegisteredObjects
            s.numberOfTrackingObjects).1 t h
        omega
    · intro em hem
      rcases List.mem_append.mp hem with h | h
      · obtain ⟨l, hl, heml⟩ := List.mem_flatten.mp h
        obtain ⟨r0, hr0, hleq⟩ := List.mem_map.mp hl
        obtain ⟨t0, ht0, hr0eq⟩ := List.mem_map.mp hr0
        have hob := (detectionTrackStep_objectIndex p inp.est
          (inp.errs t0.objectIndex) t0).2 em (by rw [hr0eq, hleq]; exact heml)
        rw [hob]
        exact hclean t0 ht0
      · have hb : s.numberOfRegisteredObjects ≤ em.objectIdx :=
          (birthLoop_bounds ops inp.egoPose inp.detPoses _ _
            (List.range inp.numDetections) s.numberOfNodes s.numberOfRegisteredObjects
            s.numberOfTrackingObjects).2.1 em h
        omega
    · refine lt_of_lt_of_le hcount ?_
      exact (birthLoop_bounds ops inp.egoPose inp.detPoses _ _
        (List.range inp.numDetections) s.numberOfNodes s.numberOfRegisteredObjects
        s.numberOfTrackingObjects).2.2

/-- One full tracking step under the retirement hypothesis: it appends one
epoch that avoids the retired id, emits no factor for it, and preserves
the retirement hypothesis. -/
theorem trackingStep_retired {Pose : Type} (ops : PoseOps Pose) (p : TrackerParams)
    (inp : StepInput Pose) (s : TrackerState Pose) (r : ℕ)
    (hinv : retiredInvariant p r s) :
    (∃ e, (trackingStep ops p inp s).1.epochs = s.epochs ++ [e] ∧
      (∀ t ∈ e, t.objectIndex ≠ r)) ∧
    (∀ em ∈ (trackingStep ops p inp s).2, em.objectIdx ≠ r) ∧
    retiredInvariant p r (trackingStep ops p inp s).1 := by
  obtain ⟨E, hE, hEclean, hEcount⟩ :=
    propagateObjectPoses_retired ops p inp.deltaTime s r hinv
  have hne : ¬ (propagateObjectPoses ops p inp.deltaTime s).epochs.length = 0 := by
    rw [hE]
    simp
  have hlast1 : (propagateObjectPoses ops p inp.deltaTime s).epochs.getLastD [] = E := by
    rw [hE]
    exact List.getLastD_concat _ _ _
  have hcount1 : r < (propagateObjectPoses ops p inp.deltaTime s).numberOfRegisteredObjects := by
    rw [hEcount]
    exact hinv.1
  obtain ⟨e, he, heclean, hemclean, hecount⟩ :=
    addDetectionFactor_retired ops p inp.detection _ r hne hcount1
      (by rw [hlast1]; exact hEclean)
  have hdrop : (propagateObjectPoses ops p inp.deltaTime s).epochs.dropLast = s.epochs := by
    rw [hE]
    exact List.dropLast_concat
  have hep : (addDetectionFactor ops p inp.detection
      (propagateObjectPoses ops p inp.deltaTime s)).1.epochs = s.epochs ++ [e] := by
    rw [he, hdrop]
  have hlast2 : (addDetectionFactor ops p inp.detection
      (propagateObjectPoses ops p inp.deltaTime s)).1.epochs.getLastD [] = e := by
    rw [hep]
    exact List.getLastD_concat _ _ _
  refine ⟨⟨e, hep, heclean⟩, ?_, hecount, ?_⟩
  · intro em hem
    rcases List.mem_append.mp hem with h | h
    · rcases List.mem_append.mp h with h2 | h2
      · exact hemclean em h2
      · obtain ⟨t, ht, heq⟩ := addConstantVelocityFactor_mem p _ em h2
        rw [hlast2] at ht
        rw [heq]
        exact heclean t ht
    · obtain ⟨t, ht, heq⟩ := addStablePoseFactor_mem _ em h
      rw [hlast2] at ht
      rw [heq]
      exact heclean t ht
  · intro t ht hidx
    have ht2 : t ∈ (addDetectionFactor ops p inp.detection
        (propagateObjectPoses ops p inp.deltaTime s)).1.epochs.getLastD [] := ht
    rw [hlast2] at ht2
    exact absurd hidx (heclean t ht2)

/-- **C5.**  Once a track's `lostCount` exceeds `trackingStepsForLostObject`
(retirement writes `lostCount = INT_MAX`), that track's object id never
appears in any subsequent epoch, and no further factor is emitted for it:
over any input sequence, every epoch appended after the current one and
every emitted factor avoid the retired id. -/
theorem retirement_C5 {Pose : Type} (ops : PoseOps Pose) (p : TrackerParams) (r : ℕ)
    (L : List (StepInput Pose)) (s : TrackerState Pose)
    (hinv : retiredInvariant p r s) :
    ∃ suffix, (runTracking ops p L s).1.epochs = s.epochs ++ suffix ∧
      (∀ e ∈ suffix, ∀ t ∈ e, t.objectIndex ≠ r) ∧
      (∀ em ∈ (runTracking ops p L s).2, em.objectIdx ≠ r) := by
  induction L generalizing s with
  | nil =>
    exact ⟨[], by simp [runTracking], by simp, by simp [runTracking]⟩
  | cons inp rest ih =>
    obtain ⟨⟨e, he, hec⟩, hem, hinv2⟩ := trackingStep_retired ops p inp s r hinv
    obtain ⟨suffix, hs, hsc, hse⟩ := ih _ hinv2
    refine ⟨[e] ++ suffix, ?_, ?_, ?_⟩
    · show (runTracking ops p (inp :: rest) s).1.epochs = _
      simp only [runTracking]
      rw [hs, he, List.append_assoc]
    · intro e1 he1 t ht
      rcases List.mem_append.mp he1 with h | h
      · rw [List.mem_singleton.mp h] at ht
        exact hec t ht
      · exact hsc e1 h t ht
    · intro em hem2
      simp only [runTracking] at hem2
      rcases List.mem_append.mp hem2 with h | h
      · exact hem em h
      · exact hse em h

/-- Witness for C5: a state whose only track is lost for 100 > 3 steps. -/
theorem retirement_C5_witness :
    ∃ suffix, (runTracking unitPoseOps cexParams [cexStep] retiredState).1.epochs =
      retiredState.epochs ++ suffix ∧
      (∀ e ∈ suffix, ∀ t ∈ e, t.objectIndex ≠ 0) ∧
      (∀ em ∈ (runTracking unitPoseOps cexParams [cexStep] retiredState).2,
        em.objectIdx ≠ 0) :=
  retirement_C5 unitPoseOps cexParams 0 [cexStep] retiredState
    (by unfold retiredInvariant; with_unfolding_all decide)

end LioSegmot
